import Mathlib

/-!
Verification of the texture-to-3MF conversion core.

The TypeScript sources are shallowly embedded: JavaScript numbers that hold
8-bit colour channels or exact small integers are modelled as `ℤ`, values that
pass through floating-point division before being rounded are modelled as `ℚ`
(the float operations are exact on the magnitudes involved), JS `Map`
insertion-order semantics are modelled as association lists, and JS strings as
Lean `String`.
-/

namespace Tex3MF

/-- `RGB` from `colorQuantization.ts`: three channel values. -/
structure RGB where
  r : ℤ
  g : ℤ
  b : ℤ
deriving DecidableEq, Repr

instance : Inhabited RGB := ⟨⟨0, 0, 0⟩⟩

/-- The three colour channels, used to name the widest channel of a bucket. -/
inductive Channel
  | r
  | g
  | b
deriving DecidableEq, Repr

/-- Channel projection `c[channel]`. -/
def RGB.channel (c : RGB) : Channel → ℤ
  | .r => c.r
  | .g => c.g
  | .b => c.b

/-- Accumulator of per-channel minima and maxima in `getColorRange`. -/
structure RangeAcc where
  rMin : ℤ
  rMax : ℤ
  gMin : ℤ
  gMax : ℤ
  bMin : ℤ
  bMax : ℤ

/-- `getColorRange` from `colorQuantization.ts`: fold the channel minima and
maxima (initial values 255 and 0 as in the source), then pick the channel with
the largest range, ties resolved r before g before b. -/
def getColorRange (colors : List RGB) : Channel × ℤ :=
  let acc := colors.foldl
    (fun a c =>
      ⟨min a.rMin c.r, max a.rMax c.r, min a.gMin c.g, max a.gMax c.g,
        min a.bMin c.b, max a.bMax c.b⟩)
    (⟨255, 0, 255, 0, 255, 0⟩ : RangeAcc)
  let rRange := acc.rMax - acc.rMin
  let gRange := acc.gMax - acc.gMin
  let bRange := acc.bMax - acc.bMin
  if rRange ≥ gRange ∧ rRange ≥ bRange then (Channel.r, rRange)
  else if gRange ≥ rRange ∧ gRange ≥ bRange then (Channel.g, gRange)
  else (Channel.b, bRange)

/-- JavaScript `Math.round`: round half toward positive infinity. -/
def jsRound (q : ℚ) : ℤ := ⌊q + 1 / 2⌋

/-- `averageColor` from `colorQuantization.ts`: channel-wise rounded mean,
`(0,0,0)` on the empty list. -/
def averageColor (colors : List RGB) : RGB :=
  if colors.length = 0 then ⟨0, 0, 0⟩
  else
    let s := colors.foldl
      (fun (a : ℚ × ℚ × ℚ) c => (a.1 + c.r, a.2.1 + c.g, a.2.2 + c.b)) (0, 0, 0)
    ⟨jsRound (s.1 / colors.length), jsRound (s.2.1 / colors.length),
      jsRound (s.2.2 / colors.length)⟩

/-- Stable insertion of one element into an already-built list: the element is
placed after every earlier element that compares less-or-equal. Used to model
`Array.prototype.sort`, which ECMAScript specifies only as a stable sort
consistent with the comparator. -/
def insertSorted {α : Type} (le : α → α → Bool) (x : α) : List α → List α
  | [] => [x]
  | y :: ys => if le y x then y :: insertSorted le x ys else x :: y :: ys

/-- Stable sort by a boolean comparator (insertion sort), the model of
JavaScript `Array.prototype.sort` with a `(a, b) => a - b` style comparator. -/
def stableSortBy {α : Type} (le : α → α → Bool) (l : List α) : List α :=
  l.foldl (fun acc x => insertSorted le x acc) []

/-- `bucketToSplit.sort((a, b) => a[splitChannel] - b[splitChannel])`:
stable ascending sort along one channel. -/
def sortBucket (bucket : List RGB) (ch : Channel) : List RGB :=
  stableSortBy (fun a b => decide (a.channel ch ≤ b.channel ch)) bucket

/-- The bucket split of `medianCut` (lines 79-86 of `colorQuantization.ts`):
sort along the widest channel, `mid = Math.floor(length / 2)`,
`bucket1 = slice(0, mid)`, `bucket2 = slice(mid)`. -/
def splitBucket (bucket : List RGB) (ch : Channel) : List (List RGB) :=
  let sorted := sortBucket bucket ch
  let mid := sorted.length / 2
  [sorted.take mid, sorted.drop mid]

/-- The scan inside `medianCut` that finds the bucket with the largest range:
skips buckets of fewer than 2 members, strict improvement only
(`range > maxRange` with `maxRange` starting at 0). -/
def scanWidestGo : List (List RGB) → ℕ → ℕ × ℤ × Channel → ℕ × ℤ × Channel
  | [], _, best => best
  | b :: bs, i, best =>
    if b.length < 2 then scanWidestGo bs (i + 1) best
    else if best.2.1 < (getColorRange b).2 then
      scanWidestGo bs (i + 1) (i, (getColorRange b).2, (getColorRange b).1)
    else scanWidestGo bs (i + 1) best

/-- Scan of all buckets starting from `maxRangeIdx = 0`, `maxRange = 0`,
`splitChannel = 'r'`. -/
def scanWidest (buckets : List (List RGB)) : ℕ × ℤ × Channel :=
  scanWidestGo buckets 0 (0, 0, Channel.r)

/-- One iteration of the `medianCut` while-loop body: `none` models the
`if (maxRange === 0) break`, otherwise the chosen bucket is replaced by its two
halves (`buckets.splice(maxRangeIdx, 1, bucket1, bucket2)`). -/
def medianCutStep (buckets : List (List RGB)) : Option (List (List RGB)) :=
  if (scanWidest buckets).2.1 = 0 then none
  else some (buckets.take (scanWidest buckets).1 ++
    splitBucket (buckets.getD (scanWidest buckets).1 []) (scanWidest buckets).2.2 ++
    buckets.drop ((scanWidest buckets).1 + 1))

/-- The `while (buckets.length < numColors)` loop. Each iteration grows the
bucket list by exactly one, so `numColors` units of fuel are never exhausted
before the guard fails. -/
def medianCutLoop (numColors : ℕ) : ℕ → List (List RGB) → List (List RGB)
  | 0, buckets => buckets
  | fuel + 1, buckets =>
    if buckets.length < numColors then
      match medianCutStep buckets with
      | none => buckets
      | some buckets' => medianCutLoop numColors fuel buckets'
    else buckets

/-- The final bucket list of `medianCut` for a non-empty input and
`numColors ≥ 2`. -/
def medianCutBuckets (colors : List RGB) (numColors : ℕ) : List (List RGB) :=
  medianCutLoop numColors numColors [colors]

/-- `medianCut` from `colorQuantization.ts`. -/
def medianCut (colors : List RGB) (numColors : ℕ) : List RGB :=
  if colors.length = 0 then []
  else if numColors ≤ 1 then [averageColor colors]
  else (medianCutBuckets colors numColors).map averageColor

/-- Squared Euclidean RGB distance, as computed in `findNearestColor`. -/
def dist2 (c p : RGB) : ℤ := (c.r - p.r) ^ 2 + (c.g - p.g) ^ 2 + (c.b - p.b) ^ 2

/-- The linear scan of `findNearestColor`: `minDist` starts at `Infinity`
(modelled by `⊤`), only a strictly smaller distance updates the best index. -/
def findNearestGo (c : RGB) : List RGB → ℕ → WithTop ℤ → ℕ → ℕ
  | [], _, _, best => best
  | p :: ps, i, minDist, best =>
    if (dist2 c p : WithTop ℤ) < minDist then findNearestGo c ps (i + 1) (dist2 c p) i
    else findNearestGo c ps (i + 1) minDist best

/-- `findNearestColor` from `colorQuantization.ts`. -/
def findNearestColor (c : RGB) (palette : List RGB) : ℕ :=
  findNearestGo c palette 0 ⊤ 0

/-! ### Embedding of `meshProcessor.ts`

A non-indexed geometry is its position stream: one coordinate triple per
vertex, three consecutive vertices per triangle. -/

/-- `v0.clone().add(v1).multiplyScalar(0.5)`: the edge midpoint. -/
def midpoint3 (a b : ℚ × ℚ × ℚ) : ℚ × ℚ × ℚ :=
  ((a.1 + b.1) / 2, (a.2.1 + b.2.1) / 2, (a.2.2 + b.2.2) / 2)

/-- One pass of `subdivideGeometryAsync` over the position stream: each
triangle `v0 v1 v2` is replaced by the four triangles
`[v0,m01,m20], [m01,v1,m12], [m20,m12,v2], [m01,m12,m20]` (12 vertices pushed
in this order). The loop reads whole triples only. -/
def subdivideVerts : List (ℚ × ℚ × ℚ) → List (ℚ × ℚ × ℚ)
  | v0 :: v1 :: v2 :: rest =>
    [v0, midpoint3 v0 v1, midpoint3 v2 v0,
      midpoint3 v0 v1, v1, midpoint3 v1 v2,
      midpoint3 v2 v0, midpoint3 v1 v2, v2,
      midpoint3 v0 v1, midpoint3 v1 v2, midpoint3 v2 v0] ++ subdivideVerts rest
  | _ => []

/-- `subdivideGeometryAsync(geometry, iterations)` on a non-indexed geometry
with a position attribute: the subdivision pass applied `iterations` times
(0 iterations returns a clone of the input). -/
def subdivideGeometry (verts : List (ℚ × ℚ × ℚ)) : ℕ → List (ℚ × ℚ × ℚ)
  | 0 => verts
  | iter + 1 => subdivideGeometry (subdivideVerts verts) iter

/-- One pass of `subdivideColors`: each face colour is pushed four times. -/
def subdivideColorsOnce (colors : List RGB) : List RGB :=
  colors.flatMap (fun c => [c, c, c, c])

/-- `subdivideColors(colors, iterations)` from `meshProcessor.ts`. -/
def subdivideColors (colors : List RGB) : ℕ → List RGB
  | 0 => colors
  | iter + 1 => subdivideColors (subdivideColorsOnce colors) iter

/-- The resampling loop of `processMeshAsync`:
`for (let i = 0; i < orig.length && sampled.length < target; i += stride)`
pushing `orig[i]`. Recursion is on the remaining number of samples. -/
def strideTake (orig : List RGB) (stride : ℕ) : ℕ → ℕ → List RGB
  | 0, _ => []
  | rem + 1, i =>
    if h : i < orig.length then orig.get ⟨i, h⟩ :: strideTake orig stride rem (i + stride)
    else []

/-- The face-colour resampling of `processMeshAsync` after simplification:
`stride = Math.max(1, Math.floor(originalCount / simplifiedCount))`, take every
`stride`-th original entry until `simplifiedCount` entries are collected. -/
def resampleColors (orig : List RGB) (simplifiedCount : ℕ) : List RGB :=
  strideTake orig (max 1 (orig.length / simplifiedCount)) simplifiedCount 0

/-- Lines 336-345 of `meshProcessor.ts`: the face-colour table is resampled
only when the simplified face count is strictly smaller. -/
def rebuildFaceColors (orig : List RGB) (simplifiedFaceCount : ℕ) : List RGB :=
  if simplifiedFaceCount < orig.length then resampleColors orig simplifiedFaceCount
  else orig

/-- One step of the `colorGroups` JS `Map`: a present key keeps its position
and its index list is extended; an absent key is appended at the end. -/
def insertFace (groups : List (ℕ × List ℕ)) (key i : ℕ) : List (ℕ × List ℕ) :=
  if groups.any (fun g => g.1 == key) then
    groups.map (fun g => if g.1 = key then (g.1, g.2 ++ [i]) else g)
  else groups ++ [(key, [i])]

/-- The grouping loop of `buildMeshesByColorAsync`: for each face index
`i < totalFaces`, insert `i` into the group of `faceColorIndices[i]`. -/
def groupByColor (faceColorIndices : List ℕ) (totalFaces : ℕ) : List (ℕ × List ℕ) :=
  (List.range totalFaces).foldl (fun m i => insertFace m (faceColorIndices.getD i 0) i) []

/-- First-occurrence duplicate removal: the key order of a JS `Map` filled by
iteration. -/
def dedupFirst {α : Type} [DecidableEq α] (l : List α) : List α :=
  l.foldl (fun acc x => if x ∈ acc then acc else acc ++ [x]) []

/-- `ProcessedMesh` from `meshProcessor.ts`: per-group geometry buffers. -/
structure ProcessedMesh where
  colorIndex : ℕ
  color : RGB
  positions : List (ℚ × ℚ × ℚ)
  normals : List (ℚ × ℚ × ℚ)
  faceCount : ℕ

/-- One colour-stats record of `buildMeshesByColorAsync`. -/
structure ColorStat where
  color : RGB
  count : ℕ
  percentage : ℚ

/-- Per-group vertex gathering: for each face index `f` the three vertices
`f*3`, `f*3+1`, `f*3+2` of the attribute stream are copied. -/
def gatherFaceVerts (attr : List (ℚ × ℚ × ℚ)) (faceIndices : List ℕ) : List (ℚ × ℚ × ℚ) :=
  faceIndices.flatMap fun f =>
    [attr.getD (f * 3) (0, 0, 0), attr.getD (f * 3 + 1) (0, 0, 0), attr.getD (f * 3 + 2) (0, 0, 0)]

/-- `buildMeshesByColorAsync` from `meshProcessor.ts` (the UI-progress yields
are no-ops): group faces by colour index, build one mesh and one stats record
per group in `Map` iteration order, and sort the stats by descending count. -/
def buildMeshesByColor (positions : List (ℚ × ℚ × ℚ)) (normals : Option (List (ℚ × ℚ × ℚ)))
    (faceColorIndices : List ℕ) (palette : List RGB) (totalFaces : ℕ) :
    List ProcessedMesh × List ColorStat :=
  let groups := groupByColor faceColorIndices totalFaces
  let meshes := groups.map fun g =>
    { colorIndex := g.1
      color := palette.getD g.1 default
      positions := gatherFaceVerts positions g.2
      normals := match normals with
        | some ns => gatherFaceVerts ns g.2
        | none => []
      faceCount := g.2.length : ProcessedMesh }
  let stats := groups.map fun g =>
    { color := palette.getD g.1 default
      count := g.2.length
      percentage := (g.2.length : ℚ) / totalFaces * 100 : ColorStat }
  (meshes, stableSortBy (fun a b => decide (b.count ≤ a.count)) stats)

/-! ### Embedding of the report pieces of `export3MF.ts` -/

/-- One step of the `colorCounts` JS `Map`:
`colorCounts.set(idx, (colorCounts.get(idx) || 0) + 1)`. -/
def bumpCount (m : List (ℕ × ℕ)) (idx : ℕ) : List (ℕ × ℕ) :=
  if m.any (fun p => p.1 == idx) then
    m.map (fun p => if p.1 = idx then (p.1, p.2 + 1) else p)
  else m ++ [(idx, 1)]

/-- The per-colour triangle counts of `export3MF` (insertion-ordered). -/
def colorCounts (faceColorIndices : List ℕ) : List (ℕ × ℕ) :=
  faceColorIndices.foldl bumpCount []

/-- `n.toString(16)` for a natural number. -/
def natToHexStr (n : ℕ) : String := String.mk (Nat.toDigits 16 n)

/-- `n.toString(16)` for an integer (negative values render with a sign). -/
def intToHexStr (n : ℤ) : String :=
  if n < 0 then "-" ++ natToHexStr n.natAbs else natToHexStr n.toNat

/-- `padStart(2, '0')`. -/
def padStart2 (s : String) : String :=
  if s.length < 2 then String.mk (List.replicate (2 - s.length) '0') ++ s else s

/-- `rgbToHex` from `colorQuantization.ts`. -/
def rgbToHex (color : RGB) : String :=
  "#" ++ padStart2 (intToHexStr color.r) ++ padStart2 (intToHexStr color.g) ++
    padStart2 (intToHexStr color.b)

/-- One entry of the export report's colour distribution. -/
structure ColorDistEntry where
  color : String
  count : ℕ
  percentage : ℚ

/-- Lines 50-62 of `export3MF.ts`: count triangles per colour index, sort the
entries by ascending colour index, and attach the hex colour and the
percentage `count / triCount * 100` (`triCount = faceColorIndices.length`). -/
def colorDistribution (faceColorIndices : List ℕ) (palette : List RGB) : List ColorDistEntry :=
  (stableSortBy (fun a b => decide (a.1 ≤ b.1)) (colorCounts faceColorIndices)).map fun p =>
    { color := rgbToHex (palette.getD p.1 default)
      count := p.2
      percentage := (p.2 : ℚ) / faceColorIndices.length * 100 }

/-! ### Embedding of the validated OrcaSlicer-wrapper export (`export3MF`)

The ZIP package is a path-to-content association list (JSZip insertion order;
directory entries carry no data and are not read back, so they are elided). -/

/-- `zip.file(path, content)`: replace an existing entry in place or append. -/
def zipSet (z : List (String × String)) (path content : String) : List (String × String) :=
  if z.any (fun e => e.1 == path) then
    z.map (fun e => if e.1 = path then (path, content) else e)
  else z ++ [(path, content)]

/-- `zip.file(path)` as a lookup of the entry's content. -/
def zipGet (z : List (String × String)) (path : String) : Option String :=
  (z.find? (fun e => e.1 == path)).map Prod.snd

/-- The character class `[a-zA-Z0-9_-]` of the base-name sanitizer. -/
def keepBaseNameChar (c : Char) : Bool :=
  decide (('a' ≤ c ∧ c ≤ 'z') ∨ ('A' ≤ c ∧ c ≤ 'Z') ∨ ('0' ≤ c ∧ c ≤ '9') ∨
    c = '_' ∨ c = '-')

/-- `filename.replace(/\.[^/.]+$/, '')`: drop a trailing dot-extension whose
characters contain no slash and no further dot. -/
def stripExtension (s : String) : String :=
  let cs := s.data
  let tailRev := cs.reverse.takeWhile (fun c => c != '.')
  if tailRev.length < cs.length ∧ tailRev ≠ [] ∧ '/' ∉ tailRev then
    String.mk (cs.take (cs.length - tailRev.length - 1))
  else s

/-- The base-name computation of `export3MF`:
`filename.replace(/\.[^/.]+$/, '').replace(/[^a-zA-Z0-9_-]/g, '_') || 'model'`. -/
def sanitizeBaseName (filename : String) : String :=
  let t := (stripExtension filename).map (fun c => if keepBaseNameChar c then c else '_')
  if t = "" then "model" else t

/-- Zero-padding on the left to a given width. -/
def padLeftZeros (s : String) (w : ℕ) : String :=
  String.mk (List.replicate (w - s.length) '0') ++ s

/-- JavaScript `Number.prototype.toFixed(digits)` on the exact rational value:
round the magnitude half-up at the last kept digit, render sign, integer part
and `digits` decimal places. -/
def toFixed (q : ℚ) (digits : ℕ) : String :=
  let scaled : ℕ := (⌊|q| * (10 : ℚ) ^ digits + 1 / 2⌋).toNat
  let sign := if q < 0 then "-" else ""
  if digits = 0 then sign ++ toString scaled
  else sign ++ toString (scaled / 10 ^ digits) ++ "." ++
    padLeftZeros (toString (scaled % 10 ^ digits)) digits

/-- `encodePaintColor`: `(colorIndex + 1) * 4` in uppercase hexadecimal. -/
def encodePaintColor (colorIndex : ℕ) : String :=
  (String.mk (Nat.toDigits 16 ((colorIndex + 1) * 4))).toUpper

/-- Comma-group a reversed digit list in blocks of three
(`toLocaleString` under the default grouping). -/
def groupThousandsRev : List Char → List Char
  | a :: b :: c :: d :: rest => a :: b :: c :: ',' :: groupThousandsRev (d :: rest)
  | l => l

/-- `n.toLocaleString()`: decimal rendering with thousands separators. -/
def toLocaleString (n : ℕ) : String :=
  String.mk (groupThousandsRev (toString n).data.reverse).reverse

/-- JavaScript `Array.prototype.join(sep)`. -/
def joinWith (sep : String) : List String → String
  | [] => ""
  | [x] => x
  | x :: y :: rest => x ++ sep ++ joinWith sep (y :: rest)

/-- Number of matches of `content.match(/pat/g)` for a plain pattern: the
left-to-right non-overlapping occurrence count. -/
def countOccs (pat : List Char) : List Char → ℕ
  | [] => 0
  | c :: rest =>
    if pat.isPrefixOf (c :: rest) then 1 + countOccs pat (List.drop (pat.length - 1) rest)
    else countOccs pat rest
termination_by l => l.length
decreasing_by
  · simp only [List.length_drop, List.length_cons]
    omega
  · simp only [List.length_cons]
    omega

/-- Plain-substring search over character lists. -/
def isSubChars (pat : List Char) : List Char → Bool
  | [] => pat.isEmpty
  | c :: rest => pat.isPrefixOf (c :: rest) || isSubChars pat rest

/-- JavaScript `s.includes(pat)`. -/
def containsSub (s pat : String) : Bool := isSubChars pat.data s.data

/-- The result record of `validate3MFStructure`. -/
structure ValidationResult where
  valid : Bool
  errors : List String
  warnings : List String
deriving Repr

/-- `validate3MFStructure` from the validated export variant: six structural
checks against the just-built package, errors collected in check order. -/
def validate3MFStructure (zip : List (String × String)) (baseName : String) :
    ValidationResult :=
  let objectPath := "3D/Objects/" ++ baseName ++ ".model"
  let relsPath := "3D/_rels/3dmodel.model.rels"
  let wrapperPath := "3D/3dmodel.model"
  let e1 := if zipGet zip objectPath = none then
    ["ERRO: " ++ objectPath ++ " não existe no ZIP"] else []
  let e2 := if zipGet zip relsPath = none then
    ["ERRO: " ++ relsPath ++ " não existe no ZIP"] else []
  let e3 := if zipGet zip wrapperPath = none then
    ["ERRO: " ++ wrapperPath ++ " não existe no ZIP"] else []
  let e4 := match zipGet zip relsPath with
    | some relsContent =>
      if containsSub relsContent ("/3D/Objects/" ++ baseName ++ ".model") then []
      else ["ERRO: .rels Target não aponta para /3D/Objects/" ++ baseName ++ ".model"]
    | none => []
  let e5 := match zipGet zip wrapperPath with
    | some wrapperContent =>
      if containsSub wrapperContent ("p:path=\"/3D/Objects/" ++ baseName ++ ".model\"") then []
      else ["ERRO: Wrapper p:path não aponta para /3D/Objects/" ++ baseName ++ ".model"]
    | none => []
  let e6 := match zipGet zip objectPath with
    | some objectContent =>
      if countOccs ("paint_color=\"").data objectContent.data = 0 then
        ["ERRO: " ++ objectPath ++ " não contém nenhum paint_color"]
      else []
    | none => []
  let errors := e1 ++ e2 ++ e3 ++ e4 ++ e5 ++ e6
  { valid := errors.length == 0, errors := errors, warnings := [] }

/-- `ExportMode` from `exportModes.ts`. -/
inductive ExportMode
  | mmu_segmentation
  | paint_color
  | multi_volume
deriving DecidableEq, Repr

/-- The serialized name of an export mode. -/
def modeName : ExportMode → String
  | .mmu_segmentation => "mmu_segmentation"
  | .paint_color => "paint_color"
  | .multi_volume => "multi_volume"

/-- `escapeXml` on a single character (the sequential global replaces of the
source commute with a character-wise expansion). -/
def escapeXmlChar (c : Char) : List Char :=
  if c = '&' then ("&amp;").data
  else if c = '<' then ("&lt;").data
  else if c = '>' then ("&gt;").data
  else if c = '"' then ("&quot;").data
  else if c = Char.ofNat 39 then ("&apos;").data
  else [c]

/-- `escapeXml` from the export module. -/
def escapeXml (s : String) : String := String.mk (s.data.flatMap escapeXmlChar)

/-- `[Content_Types].xml` of the validated export. -/
def contentTypesXml : String :=
  "<?xml version=\"1.0\" encoding=\"UTF-8\"?>\n<Types xmlns=\"http://schemas.openxmlformats.org/package/2006/content-types\">\n  <Default Extension=\"rels\" ContentType=\"application/vnd.openxmlformats-package.relationships+xml\"/>\n  <Default Extension=\"model\" ContentType=\"application/vnd.ms-package.3dmanufacturing-3dmodel+xml\"/>\n  <Default Extension=\"config\" ContentType=\"text/plain\"/>\n  <Default Extension=\"png\" ContentType=\"image/png\"/>\n</Types>"

/-- `_rels/.rels` of the validated export. -/
def rootRelsXml : String :=
  "<?xml version=\"1.0\" encoding=\"UTF-8\"?>\n<Relationships xmlns=\"http://schemas.openxmlformats.org/package/2006/relationships\">\n  <Relationship Target=\"/3D/3dmodel.model\" Id=\"rel0\" Type=\"http://schemas.microsoft.com/3dmanufacturing/2013/01/3dmodel\"/>\n</Relationships>"

/-- `3D/_rels/3dmodel.model.rels`: links the wrapper to the geometry. -/
def modelRelsXml (baseName : String) : String :=
  "<?xml version=\"1.0\" encoding=\"UTF-8\"?>\n<Relationships xmlns=\"http://schemas.openxmlformats.org/package/2006/relationships\">\n  <Relationship Target=\"/3D/Objects/" ++ baseName ++ ".model\" Id=\"rel-1\" Type=\"http://schemas.microsoft.com/3dmanufacturing/2013/01/3dmodel\"/>\n</Relationships>"

/-- `buildWrapperModel`: the `3D/3dmodel.model` wrapper document. -/
def buildWrapperModel (baseName : String) : String :=
  "<?xml version=\"1.0\" encoding=\"UTF-8\"?>\n<model unit=\"millimeter\" xml:lang=\"en-US\"\n       xmlns=\"http://schemas.microsoft.com/3dmanufacturing/core/2015/02\"\n       xmlns:p=\"http://schemas.microsoft.com/3dmanufacturing/production/2015/06\">\n  <metadata name=\"Application\">3D Texture Converter</metadata>\n  <resources>\n    <object id=\"1\" type=\"model\">\n      <components>\n        <component p:path=\"/3D/Objects/" ++ baseName ++ ".model\" objectid=\"1\"/>\n      </components>\n    </object>\n  </resources>\n  <build>\n    <item objectid=\"1\" printable=\"1\"/>\n  </build>\n</model>"

/-- One vertex through the dedup `Map`: `toFixed(6)` coordinates joined by
commas form the key; an unseen key appends a vertex line (at the given indent)
and receives the next index (the running counter equals the map size). -/
def addVertex (indent : String) (acc : List (String × ℕ) × List String) (p : ℚ × ℚ × ℚ) :
    (List (String × ℕ) × List String) × ℕ :=
  let x := toFixed p.1 6
  let y := toFixed p.2.1 6
  let z := toFixed p.2.2 6
  let key := x ++ "," ++ y ++ "," ++ z
  match acc.1.find? (fun e => e.1 == key) with
  | some e => (acc, e.2)
  | none =>
    ((acc.1 ++ [(key, acc.1.length)],
      acc.2 ++ [indent ++ "<vertex x=\"" ++ x ++ "\" y=\"" ++ y ++ "\" z=\"" ++ z ++ "\"/>"]),
      acc.1.length)

/-- The accumulator of `buildObjectModel`'s triangle loop. -/
structure ObjAcc where
  vmap : List (String × ℕ)
  vlines : List String
  tlines : List String
  samples : List String

/-- One triangle of `buildObjectModel`: dedup the three vertices, emit the
triangle line with its `paint_color`, and keep the first five lines as
samples. -/
def objStep (positions : List (ℚ × ℚ × ℚ)) (faceColorIndices : List ℕ)
    (acc : ObjAcc) (i : ℕ) : ObjAcc :=
  let r0 := addVertex "        " (acc.vmap, acc.vlines) (positions.getD (i * 3) (0, 0, 0))
  let r1 := addVertex "        " r0.1 (positions.getD (i * 3 + 1) (0, 0, 0))
  let r2 := addVertex "        " r1.1 (positions.getD (i * 3 + 2) (0, 0, 0))
  let colorIdx := faceColorIndices.getD i 0
  let triangleLine := "        <triangle v1=\"" ++ toString r0.2 ++ "\" v2=\"" ++
    toString r1.2 ++ "\" v3=\"" ++ toString r2.2 ++ "\" paint_color=\"" ++
    encodePaintColor colorIdx ++ "\"/>"
  { vmap := r2.1.1
    vlines := r2.1.2
    tlines := acc.tlines ++ [triangleLine]
    samples := if acc.samples.length < 5 then acc.samples ++ [triangleLine.trim]
      else acc.samples }

/-- `buildObjectModel`: the `3D/Objects/{baseName}.model` document with one
mesh object whose every triangle carries `paint_color`, plus the sample
triangle lines for the report. (In the embedding a geometry is its position
stream, so the `if (!positions)` guard of the source cannot fire.) -/
def buildObjectModel (positions : List (ℚ × ℚ × ℚ)) (faceColorIndices : List ℕ)
    (palette : List RGB) (baseName : String) : String × List String :=
  let acc := (List.range (positions.length / 3)).foldl
    (objStep positions faceColorIndices) ⟨[], [], [], []⟩
  ("<?xml version=\"1.0\" encoding=\"UTF-8\"?>\n<model unit=\"millimeter\" xml:lang=\"en-US\"\n       xmlns=\"http://schemas.microsoft.com/3dmanufacturing/core/2015/02\"\n       xmlns:slic3rpe=\"http://schemas.slic3r.org/3mf/2017/06\"\n       xmlns:p=\"http://schemas.microsoft.com/3dmanufacturing/production/2015/06\">\n  <metadata name=\"Title\">" ++
    escapeXml baseName ++
    "</metadata>\n  <metadata name=\"Application\">3D Texture Converter</metadata>\n  <resources>\n    <object id=\"1\" type=\"model\">\n      <mesh>\n        <vertices>\n" ++
    joinWith "\n" acc.vlines ++
    "\n        </vertices>\n        <triangles>\n" ++
    joinWith "\n" acc.tlines ++
    "\n        </triangles>\n      </mesh>\n    </object>\n  </resources>\n  <build>\n    <item objectid=\"1\"/>\n  </build>\n</model>",
    acc.samples)

/-- The colour grouping of `buildModelWithMultiVolume`: each triangle's three
raw coordinate triples are appended to its colour's list (`Map` order). -/
def mvGroups (positions : List (ℚ × ℚ × ℚ)) (faceColorIndices : List ℕ) :
    List (ℕ × List (ℚ × ℚ × ℚ)) :=
  (List.range (positions.length / 3)).foldl
    (fun m i =>
      let tri := [positions.getD (i * 3) (0, 0, 0), positions.getD (i * 3 + 1) (0, 0, 0),
        positions.getD (i * 3 + 2) (0, 0, 0)]
      let colorIdx := faceColorIndices.getD i 0
      if m.any (fun g => g.1 == colorIdx) then
        m.map (fun g => if g.1 = colorIdx then (g.1, g.2 ++ tri) else g)
      else m ++ [(colorIdx, tri)])
    []

/-- One `<object>` block of the multi-volume document: vertices deduplicated
per group, triangles without paint attributes. -/
def mvGroupXml (objectId : ℕ) (colorIdx : ℕ) (palette : List RGB)
    (verts : List (ℚ × ℚ × ℚ)) : String :=
  let acc := (List.range (verts.length / 3)).foldl
    (fun (acc : (List (String × ℕ) × List String) × List String) i =>
      let r0 := addVertex "          " acc.1 (verts.getD (i * 3) (0, 0, 0))
      let r1 := addVertex "          " r0.1 (verts.getD (i * 3 + 1) (0, 0, 0))
      let r2 := addVertex "          " r1.1 (verts.getD (i * 3 + 2) (0, 0, 0))
      (r2.1, acc.2 ++ ["          <triangle v1=\"" ++ toString r0.2 ++ "\" v2=\"" ++
        toString r1.2 ++ "\" v3=\"" ++ toString r2.2 ++ "\"/>"]))
    (([], []), [])
  let hex := rgbToHex (palette.getD colorIdx default)
  "    <object id=\"" ++ toString objectId ++ "\" name=\"Color" ++ toString (colorIdx + 1) ++
    "_" ++ hex.replace "#" "" ++ "\" type=\"model\">\n      <mesh>\n        <vertices>\n" ++
    joinWith "\n" acc.1.2 ++
    "\n        </vertices>\n        <triangles>\n" ++
    joinWith "\n" acc.2 ++
    "\n        </triangles>\n      </mesh>\n    </object>"

/-- `buildModelWithMultiVolume`: one object and one build item per colour. -/
def buildModelWithMultiVolume (positions : List (ℚ × ℚ × ℚ)) (faceColorIndices : List ℕ)
    (palette : List RGB) (baseName : String) : String :=
  let groups := mvGroups positions faceColorIndices
  let objects := groups.enum.map (fun p => mvGroupXml (p.1 + 1) p.2.1 palette p.2.2)
  let buildItems := groups.enum.map
    (fun p => "    <item objectid=\"" ++ toString (p.1 + 1) ++ "\"/>")
  "<?xml version=\"1.0\" encoding=\"UTF-8\"?>\n<model unit=\"millimeter\" xml:lang=\"en-US\"\n       xmlns=\"http://schemas.microsoft.com/3dmanufacturing/core/2015/02\"\n       xmlns:p=\"http://schemas.microsoft.com/3dmanufacturing/production/2015/06\">\n  <metadata name=\"Title\">" ++
    escapeXml baseName ++
    "</metadata>\n  <metadata name=\"Application\">3D Texture Converter</metadata>\n  <resources>\n" ++
    joinWith "\n" objects ++
    "\n  </resources>\n  <build>\n" ++
    joinWith "\n" buildItems ++
    "\n  </build>\n</model>"

/-- `Metadata/Slic3r_PE.config`: the filament colour list. -/
def buildSlicerPEConfig (palette : List RGB) : String :=
  "; Generated by 3D Texture Converter\n; OrcaSlicer/Bambu Studio/PrusaSlicer compatible format\n\nfilament_colour = " ++
    joinWith ";" (palette.map rgbToHex) ++
    "\nfilament_settings_id = " ++
    joinWith ";" (palette.map (fun _ => "Generic PLA")) ++ "\n"

/-- `Metadata/model_settings.config`. -/
def buildModelSettingsConfig (baseName : String) : String :=
  "; OrcaSlicer model settings\n; Generated by 3D Texture Converter\n\n[plate]\nprint_sequence = \nplate_index = 0\nlabel_object_enabled = 0\n\n[object:1]\nname = " ++
    baseName ++ "\nextruder = 1\n"

/-- `Metadata/project_settings.config`. -/
def buildProjectSettingsConfig : String :=
  "; OrcaSlicer project settings\n; Generated by 3D Texture Converter\n\n[project]\nname = 3D Texture Converter Export\n"

/-- `Metadata/slice_info.config`. -/
def buildSliceInfoConfig : String :=
  "; OrcaSlicer slice info\n; Generated by 3D Texture Converter\n\n[slice_info]\nplate_count = 1\n"

/-- `Metadata/Slic3r_PE_model.config` for the single-object modes. -/
def buildSlicerModelConfig (palette : List RGB) (triCount : ℕ) : String :=
  "<?xml version=\"1.0\" encoding=\"UTF-8\"?>\n<config>\n  <object id=\"1\">\n    <metadata type=\"object\" key=\"name\" value=\"MultiColorModel\"/>\n    <metadata type=\"object\" key=\"extruder\" value=\"1\"/>\n    <volume firstid=\"0\" lastid=\"" ++
    toString ((triCount : ℤ) - 1) ++
    "\">\n      <metadata type=\"volume\" key=\"name\" value=\"ColoredMesh\"/>\n      <metadata type=\"volume\" key=\"volume_type\" value=\"ModelPart\"/>\n      <metadata type=\"volume\" key=\"extruder\" value=\"1\"/>\n    </volume>\n  </object>\n</config>"

/-- `Metadata/Slic3r_PE_model.config` for multi-volume mode. -/
def buildMultiVolumeModelConfig (palette : List RGB) : String :=
  "<?xml version=\"1.0\" encoding=\"UTF-8\"?>\n<config>\n" ++
    joinWith "\n" (palette.enum.map (fun p =>
      "  <object id=\"" ++ toString (p.1 + 1) ++
        "\">\n    <metadata type=\"object\" key=\"name\" value=\"Color" ++
        toString (p.1 + 1) ++
        "\"/>\n    <metadata type=\"object\" key=\"extruder\" value=\"" ++
        toString (p.1 + 1) ++ "\"/>\n  </object>")) ++
    "\n</config>"

/-- `formatBytes` from the export module. -/
def formatBytes (bytes : ℕ) : String :=
  if bytes < 1024 then toString bytes ++ " bytes"
  else if bytes < 1024 * 1024 then toFixed ((bytes : ℚ) / 1024) 1 ++ " KB"
  else toFixed ((bytes : ℚ) / (1024 * 1024)) 2 ++ " MB"

/-- The capture group of `/paint_color="([^"]+)"/`: the first position where
the literal pattern matches with a non-empty quote-free run followed by a
closing quote. -/
def findPaintColorCapture : List Char → Option (List Char)
  | [] => none
  | c :: rest =>
    let pat := ("paint_color=\"").data
    let tail := (c :: rest).drop pat.length
    let cap := tail.takeWhile (fun ch => ch != '"')
    if pat.isPrefixOf (c :: rest) = true ∧ cap ≠ [] ∧ tail.drop cap.length ≠ [] then some cap
    else findPaintColorCapture rest

/-- `s.match(/paint_color="([^"]+)"/)?.[1] || ''`. -/
def extractPaintColor (s : String) : String :=
  match findPaintColorCapture s.data with
  | some cap => String.mk cap
  | none => ""

/-- One sample-attribute record of the report (`attr` models the source field
named `attribute`, which is a reserved word here). -/
structure SampleAttr where
  triangle : ℕ
  colorIndex : ℕ
  attr : String

/-- The `pathVerification` record of the report. -/
structure PathVerification where
  relsTarget : String
  wrapperPath : String
  objectFileExists : Bool

/-- `ExportReport` of the validated export variant. -/
structure ExportReport where
  mode : ExportMode
  totalTriangles : ℕ
  totalVertices : ℕ
  palette : List String
  colorDistribution : List ColorDistEntry
  sampleAttributes : List SampleAttr
  files : List (String × ℕ)
  validation : ValidationResult
  fileStructure : String
  pathVerification : PathVerification
  sampleTriangles : List String
  wrapperXmlPreview : String
  objectXmlPreview : String

/-- `s.split('\n').slice(0, n).join('\n')`. -/
def previewLines (s : String) (n : ℕ) : String :=
  joinWith "\n" ((s.splitOn "\n").take n)

/-- `Object.entries(zip.files)` restricted to files, with `content.length`
sizes (all contents are ASCII at this point, so code units equal characters). -/
def fileListOf (zip : List (String × String)) : List (String × ℕ) :=
  zip.map (fun e => (e.1, e.2.length))

/-- `buildExpandedDiagnosticReport`: the plain-text debug report
(`new Date().toISOString()` is passed in as `dateStr`). -/
def buildExpandedDiagnosticReport (report : ExportReport) (baseName dateStr : String) :
    String :=
  let usedColors :=
    dedupFirst (report.sampleAttributes.map (fun s => extractPaintColor s.attr))
  joinWith "\n"
    (["=== 3D Texture Converter - Debug Report ===",
      "Date: " ++ dateStr,
      "Export Mode: " ++ modeName report.mode,
      "",
      "--- File Structure ---",
      report.fileStructure,
      "",
      "--- Path Verification ---",
      "  .rels Target: " ++ report.pathVerification.relsTarget ++ " " ++
        (if report.pathVerification.objectFileExists then "✓" else "✗"),
      "  Wrapper p:path: " ++ report.pathVerification.wrapperPath ++ " " ++
        (if report.pathVerification.objectFileExists then "✓" else "✗"),
      "  Object file exists: " ++
        (if report.pathVerification.objectFileExists then "YES ✓" else "NO ✗"),
      "",
      "--- Geometry ---",
      "  Total Triangles: " ++ toLocaleString report.totalTriangles,
      "  Total Vertices: " ++ toLocaleString report.totalVertices,
      "",
      "--- Palette ---"] ++
      report.palette.enum.map (fun p => "  Color " ++ toString (p.1 + 1) ++ ": " ++ p.2 ++
        " -> paint_color=\"" ++ encodePaintColor p.1 ++ "\"") ++
      ["", "--- Color Distribution ---"] ++
      report.colorDistribution.map (fun d => "  " ++ d.color ++ ": " ++
        toLocaleString d.count ++ " triangles (" ++ toFixed d.percentage 2 ++ "%)") ++
      ["",
        "--- Paint Color Stats ---",
        "  Triangles with paint_color: " ++ toLocaleString report.totalTriangles ++ " (100%)",
        "  Colors used: " ++ joinWith ", " (usedColors.filter (fun c => c != "")) ++ " (" ++
          toString report.palette.length ++ " extruders)",
        "",
        "--- Sample Triangles (5 lines) ---"] ++
      report.sampleTriangles.map (fun t => "  " ++ t) ++
      ["", "--- Wrapper XML (first 20 lines) ---", report.wrapperXmlPreview,
        "", "--- Object Model XML (first 50 lines) ---", report.objectXmlPreview,
        "", "--- Validation Result ---",
        (if report.validation.valid then "  ✓ All checks passed"
          else "  ✗ ERRORS:\n" ++
            joinWith "\n" (report.validation.errors.map (fun e => "    - " ++ e))),
        "",
        "--- Manual Validation Checklist ---",
        "  1. Rename .3mf to .zip and extract",
        "  2. Check: 3D/Objects/" ++ baseName ++ ".model exists",
        "  3. Open 3D/Objects/" ++ baseName ++ ".model and search for paint_color=",
        "  4. Open 3D/_rels/3dmodel.model.rels and verify Target=\"/3D/Objects/" ++
          baseName ++ ".model\"",
        "  5. Open 3D/3dmodel.model and verify p:path=\"/3D/Objects/" ++ baseName ++
          ".model\"",
        "",
        "=== End Report ==="])

/-- Steps 1-11 of `export3MF`: the package contents built before validation
(directory entries elided; file order is JSZip insertion order). -/
def buildExportZip (positions : List (ℚ × ℚ × ℚ)) (faceColorIndices : List ℕ)
    (palette : List RGB) (baseName : String) (mode : ExportMode) :
    List (String × String) :=
  let z1 := zipSet [] "[Content_Types].xml" contentTypesXml
  let z2 := zipSet z1 "_rels/.rels" rootRelsXml
  let z3 := zipSet z2 "3D/_rels/3dmodel.model.rels" (modelRelsXml baseName)
  let z4 := zipSet z3 "3D/3dmodel.model" (buildWrapperModel baseName)
  let objectContent := match mode with
    | .multi_volume => buildModelWithMultiVolume positions faceColorIndices palette baseName
    | _ => (buildObjectModel positions faceColorIndices palette baseName).1
  let z5 := zipSet z4 ("3D/Objects/" ++ baseName ++ ".model") objectContent
  let z6 := zipSet z5 "Metadata/Slic3r_PE.config" (buildSlicerPEConfig palette)
  let z7 := zipSet z6 "Metadata/model_settings.config" (buildModelSettingsConfig baseName)
  let z8 := zipSet z7 "Metadata/project_settings.config" buildProjectSettingsConfig
  let z9 := zipSet z8 "Metadata/slice_info.config" buildSliceInfoConfig
  let modelConfig := match mode with
    | .multi_volume => buildMultiVolumeModelConfig palette
    | _ => buildSlicerModelConfig palette faceColorIndices.length
  zipSet z9 "Metadata/Slic3r_PE_model.config" modelConfig

/-- `ExportData`: geometry position stream, per-face colour indices, palette. -/
structure ExportData where
  positions : List (ℚ × ℚ × ℚ)
  faceColorIndices : List ℕ
  palette : List RGB

/-- The report record assembled by `export3MF` after validation passed:
file list with sizes, sample attributes (indices `0..4`, the middle, the last,
filtered to range), path verification and document previews. -/
def exportReportOf (exportData : ExportData) (baseName : String) (mode : ExportMode)
    (zip : List (String × String)) (validation : ValidationResult) : ExportReport :=
  let triCount := exportData.faceColorIndices.length
  let fileList := fileListOf zip
  let sampleIndices :=
    ([0, 1, 2, 3, 4, triCount / 2, triCount - 1].filter (fun i => decide (i < triCount)))
  let sampleAttributes := sampleIndices.map (fun i =>
    { triangle := i
      colorIndex := exportData.faceColorIndices.getD i 0
      attr := "paint_color=\"" ++
        encodePaintColor (exportData.faceColorIndices.getD i 0) ++ "\"" : SampleAttr })
  let objectModelContent := match mode with
    | .multi_volume => buildModelWithMultiVolume exportData.positions
        exportData.faceColorIndices exportData.palette baseName
    | _ => (buildObjectModel exportData.positions exportData.faceColorIndices
        exportData.palette baseName).1
  let sampleTriangles := match mode with
    | .multi_volume => ([] : List String)
    | _ => (buildObjectModel exportData.positions exportData.faceColorIndices
        exportData.palette baseName).2
  { mode := mode
    totalTriangles := triCount
    totalVertices := exportData.positions.length
    palette := exportData.palette.map rgbToHex
    colorDistribution := colorDistribution exportData.faceColorIndices exportData.palette
    sampleAttributes := sampleAttributes
    files := fileList
    validation := validation
    fileStructure :=
      joinWith "\n" (fileList.map (fun f => "  " ++ f.1 ++ " (" ++ formatBytes f.2 ++ ")"))
    pathVerification := {
      relsTarget := "/3D/Objects/" ++ baseName ++ ".model"
      wrapperPath := "/3D/Objects/" ++ baseName ++ ".model"
      objectFileExists := (zipGet zip ("3D/Objects/" ++ baseName ++ ".model")).isSome }
    sampleTriangles := sampleTriangles
    wrapperXmlPreview := previewLines (buildWrapperModel baseName) 20
    objectXmlPreview := previewLines objectModelContent 50 }

/-- `export3MF` (validated OrcaSlicer-wrapper variant): build the package,
validate it, and either throw the concatenated error list or return the
package (with the diagnostic report file added) and the report record. -/
def export3MF (exportData : ExportData) (filename : String) (mode : ExportMode)
    (dateStr : String) : Except String (List (String × String) × ExportReport) :=
  let baseName := sanitizeBaseName filename
  let zip := buildExportZip exportData.positions exportData.faceColorIndices
    exportData.palette baseName mode
  let validation := validate3MFStructure zip baseName
  if validation.valid then
    let report := exportReportOf exportData baseName mode zip validation
    Except.ok (zipSet zip "Metadata/3DTextureConverter_report.txt"
      (buildExpandedDiagnosticReport report baseName dateStr), report)
  else
    Except.error ("3MF Validation Failed:\n" ++ joinWith "\n" validation.errors)

/-! ### Supporting lemmas for the colour-quantization embedding -/

theorem insertSorted_length {α : Type} (le : α → α → Bool) (x : α) (l : List α) :
    (insertSorted le x l).length = l.length + 1 := by
  induction l with
  | nil => simp [insertSorted]
  | cons y ys ih =>
    simp only [insertSorted]
    split <;> simp [ih]

theorem stableSortBy_length {α : Type} (le : α → α → Bool) (l : List α) :
    (stableSortBy le l).length = l.length := by
  suffices h : ∀ acc : List α,
      (l.foldl (fun acc x => insertSorted le x acc) acc).length = acc.length + l.length by
    simpa using h []
  induction l with
  | nil => simp
  | cons y ys ih =>
    intro acc
    simp only [List.foldl_cons, List.length_cons]
    rw [ih, insertSorted_length]
    omega

theorem foldl_rgb_sum (l : List RGB) (a : ℚ × ℚ × ℚ) :
    l.foldl (fun (a : ℚ × ℚ × ℚ) c => (a.1 + c.r, a.2.1 + c.g, a.2.2 + c.b)) a =
      (a.1 + (l.map fun c => (c.r : ℚ)).sum, a.2.1 + (l.map fun c => (c.g : ℚ)).sum,
        a.2.2 + (l.map fun c => (c.b : ℚ)).sum) := by
  induction l generalizing a with
  | nil => simp
  | cons x xs ih =>
    simp only [List.foldl_cons, List.map_cons, List.sum_cons, ih]
    refine Prod.ext ?_ (Prod.ext ?_ ?_) <;> simp <;> ring

theorem averageColor_eq_mean (l : List RGB) (h : l ≠ []) :
    averageColor l =
      ⟨jsRound ((l.map fun c => (c.r : ℚ)).sum / l.length),
        jsRound ((l.map fun c => (c.g : ℚ)).sum / l.length),
        jsRound ((l.map fun c => (c.b : ℚ)).sum / l.length)⟩ := by
  have hlen : l.length ≠ 0 := by simpa using (List.length_pos.mpr h).ne'
  unfold averageColor
  rw [if_neg hlen]
  simp [foldl_rgb_sum]

theorem scanWidestGo_mono :
    ∀ (bs : List (List RGB)) (i : ℕ) (acc : ℕ × ℤ × Channel),
      acc.2.1 ≤ (scanWidestGo bs i acc).2.1 := by
  intro bs
  induction bs with
  | nil =>
    intro i acc
    simp [scanWidestGo]
  | cons b bs ih =>
    intro i acc
    simp only [scanWidestGo]
    split
    · exact ih _ _
    · split
      · exact le_trans (le_of_lt (by assumption)) (ih _ _)
      · exact ih _ _

theorem scanWidestGo_zero_ranges :
    ∀ (bs : List (List RGB)) (i : ℕ) (acc : ℕ × ℤ × Channel),
      (scanWidestGo bs i acc).2.1 = 0 →
      ∀ b ∈ bs, 2 ≤ b.length → (getColorRange b).2 ≤ 0 := by
  intro bs
  induction bs with
  | nil => simp
  | cons b bs ih =>
    intro i acc hz b' hb' hlen
    rcases List.mem_cons.mp hb' with rfl | hmem
    · have h2 : ¬ b'.length < 2 := by omega
      simp only [scanWidestGo, if_neg h2] at hz
      by_cases hup : acc.2.1 < (getColorRange b').2
      · rw [if_pos hup] at hz
        have hm := scanWidestGo_mono bs (i + 1) (i, (getColorRange b').2, (getColorRange b').1)
        simp only at hm
        rw [hz] at hm
        exact hm
      · rw [if_neg hup] at hz
        have hm := scanWidestGo_mono bs (i + 1) acc
        rw [hz] at hm
        push_neg at hup
        exact le_trans hup hm
    · simp only [scanWidestGo] at hz
      split at hz
      · exact ih _ _ hz b' hmem hlen
      · split at hz
        · exact ih _ _ hz b' hmem hlen
        · exact ih _ _ hz b' hmem hlen

theorem scanWidestGo_idx_lt :
    ∀ (bs : List (List RGB)) (i : ℕ) (acc : ℕ × ℤ × Channel),
      (acc.2.1 ≠ 0 → acc.1 < i) →
      (scanWidestGo bs i acc).2.1 ≠ 0 → (scanWidestGo bs i acc).1 < i + bs.length := by
  intro bs
  induction bs with
  | nil =>
    intro i acc hacc hnz
    simp only [scanWidestGo] at hnz ⊢
    simpa using hacc hnz
  | cons b bs ih =>
    intro i acc hacc hnz
    simp only [scanWidestGo] at hnz ⊢
    by_cases h2 : b.length < 2
    · rw [if_pos h2] at hnz ⊢
      have := ih (i + 1) acc (fun h => Nat.lt_succ_of_lt (hacc h)) hnz
      simp only [List.length_cons]
      omega
    · rw [if_neg h2] at hnz ⊢
      by_cases hup : acc.2.1 < (getColorRange b).2
      · rw [if_pos hup] at hnz ⊢
        have := ih (i + 1) (i, (getColorRange b).2, (getColorRange b).1)
          (fun _ => Nat.lt_succ_self i) hnz
        simp only [List.length_cons]
        omega
      · rw [if_neg hup] at hnz ⊢
        have := ih (i + 1) acc (fun h => Nat.lt_succ_of_lt (hacc h)) hnz
        simp only [List.length_cons]
        omega

theorem scanWidest_idx_lt {bs : List (List RGB)} (h : (scanWidest bs).2.1 ≠ 0) :
    (scanWidest bs).1 < bs.length := by
  have := scanWidestGo_idx_lt bs 0 (0, 0, Channel.r) (by simp) h
  simpa using this

theorem splitBucket_length_two (bucket : List RGB) (ch : Channel) :
    (splitBucket bucket ch).length = 2 := rfl

theorem medianCutStep_length {bs bs' : List (List RGB)}
    (h : medianCutStep bs = some bs') : bs'.length = bs.length + 1 := by
  unfold medianCutStep at h
  by_cases hz : (scanWidest bs).2.1 = 0
  · simp [hz] at h
  · rw [if_neg hz, Option.some.injEq] at h
    have hidx := scanWidest_idx_lt hz
    subst h
    simp only [List.length_append, List.length_take, List.length_drop,
      splitBucket, List.length_cons, List.length_nil]
    omega

theorem medianCutLoop_length_bounds (K : ℕ) :
    ∀ (fuel : ℕ) (bs : List (List RGB)), 1 ≤ bs.length → bs.length ≤ K →
      1 ≤ (medianCutLoop K fuel bs).length ∧ (medianCutLoop K fuel bs).length ≤ K := by
  intro fuel
  induction fuel with
  | zero =>
    intro bs h1 h2
    exact ⟨h1, h2⟩
  | succ f ih =>
    intro bs h1 h2
    simp only [medianCutLoop]
    by_cases hlt : bs.length < K
    · rw [if_pos hlt]
      cases hstep : medianCutStep bs with
      | none => exact ⟨h1, h2⟩
      | some bs' =>
        have hl := medianCutStep_length hstep
        exact ih bs' (by omega) (by omega)
    · rw [if_neg hlt]
      exact ⟨h1, h2⟩

theorem medianCutStep_none_ranges {bs : List (List RGB)} (h : medianCutStep bs = none) :
    ∀ b ∈ bs, 2 ≤ b.length → (getColorRange b).2 ≤ 0 := by
  unfold medianCutStep at h
  by_cases hz : (scanWidest bs).2.1 = 0
  · exact scanWidestGo_zero_ranges bs 0 (0, 0, Channel.r) hz
  · simp [hz] at h

theorem medianCutLoop_stuck (K : ℕ) :
    ∀ (fuel : ℕ) (bs : List (List RGB)), bs.length ≤ K → K + 1 ≤ fuel + bs.length →
      (medianCutLoop K fuel bs).length < K →
      ∀ b ∈ medianCutLoop K fuel bs, 2 ≤ b.length → (getColorRange b).2 ≤ 0 := by
  intro fuel
  induction fuel with
  | zero =>
    intro bs h1 h2 h3
    omega
  | succ f ih =>
    intro bs h1 h2 h3
    simp only [medianCutLoop] at h3 ⊢
    by_cases hlt : bs.length < K
    · rw [if_pos hlt] at h3 ⊢
      cases hstep : medianCutStep bs with
      | none => exact medianCutStep_none_ranges hstep
      | some bs' =>
        have hl := medianCutStep_length hstep
        rw [hstep] at h3
        exact ih bs' (by omega) (by omega) h3
    · rw [if_neg hlt] at h3 ⊢
      omega

theorem findNearestGo_spec (c : RGB) (full : List RGB) :
    ∀ (fuel k : ℕ) (mind : WithTop ℤ) (best : ℕ),
      full.length - k = fuel →
      k ≤ full.length →
      ((mind = ⊤ ∧ k = 0 ∧ best = 0) ∨
        (best < k ∧ mind = (dist2 c (full.getD best default) : WithTop ℤ) ∧
          (∀ j, j < k → dist2 c (full.getD best default) ≤ dist2 c (full.getD j default)) ∧
          (∀ j, j < best → dist2 c (full.getD best default) < dist2 c (full.getD j default)))) →
      (full = [] ∧ findNearestGo c (full.drop k) k mind best = 0) ∨
        (findNearestGo c (full.drop k) k mind best < full.length ∧
          (∀ j, j < full.length →
            dist2 c (full.getD (findNearestGo c (full.drop k) k mind best) default) ≤
              dist2 c (full.getD j default)) ∧
          (∀ j, j < findNearestGo c (full.drop k) k mind best →
            dist2 c (full.getD (findNearestGo c (full.drop k) k mind best) default) <
              dist2 c (full.getD j default))) := by
  intro fuel
  induction fuel with
  | zero =>
    intro k mind best hf hk hinv
    have hkl : k = full.length := by omega
    have hdrop : full.drop k = [] := by rw [hkl, List.drop_length]
    rw [hdrop]
    simp only [findNearestGo]
    rcases hinv with ⟨_, hk0, hb0⟩ | ⟨hb, _, hle, hslt⟩
    · left
      have hnil : full = [] := List.eq_nil_of_length_eq_zero (by omega)
      exact ⟨hnil, hb0⟩
    · right
      rw [hkl] at hb hle
      exact ⟨hb, hle, hslt⟩
  | succ f ih =>
    intro k mind best hf hk hinv
    have hklt : k < full.length := by omega
    rw [List.drop_eq_getElem_cons hklt]
    simp only [findNearestGo]
    have hgetD : full.getD k default = full[k] := List.getD_eq_getElem full default hklt
    by_cases hlt : ((dist2 c full[k] : ℤ) : WithTop ℤ) < mind
    · rw [if_pos hlt]
      refine ih (k + 1) (dist2 c full[k] : ℤ) k (by omega) (by omega)
        (Or.inr ⟨Nat.lt_succ_self k, by rw [hgetD], ?_, ?_⟩)
      · intro j hj
        rcases Nat.lt_succ_iff_lt_or_eq.mp hj with hj' | rfl
        · rcases hinv with ⟨hm, hk0, _⟩ | ⟨hb, hmind, hle, _⟩
          · omega
          · rw [hgetD]
            have h1 : dist2 c full[k] < dist2 c (full.getD best default) := by
              rw [hmind] at hlt
              exact_mod_cast hlt
            exact le_of_lt (lt_of_lt_of_le h1 (hle j hj'))
        · rw [hgetD]
      · intro j hj
        rcases hinv with ⟨hm, hk0, _⟩ | ⟨hb, hmind, hle, _⟩
        · omega
        · rw [hgetD]
          have h1 : dist2 c full[k] < dist2 c (full.getD best default) := by
            rw [hmind] at hlt
            exact_mod_cast hlt
          exact lt_of_lt_of_le h1 (hle j hj)
    · rw [if_neg hlt]
      rcases hinv with ⟨hm, hk0, hb0⟩ | ⟨hb, hmind, hle, hslt⟩
      · rw [hm] at hlt
        exact absurd (WithTop.coe_lt_top (dist2 c full[k])) hlt
      · have hge : dist2 c (full.getD best default) ≤ dist2 c full[k] := by
          rw [hmind] at hlt
          exact_mod_cast not_lt.mp hlt
        refine ih (k + 1) mind best (by omega) (by omega)
          (Or.inr ⟨Nat.lt_succ_of_lt hb, hmind, ?_, hslt⟩)
        intro j hj
        rcases Nat.lt_succ_iff_lt_or_eq.mp hj with hj' | rfl
        · exact hle j hj'
        · rw [hgetD]
          exact hge

/-! ### Claim theorems for the colour-quantization component -/

/-- C3: for every colour `c` and non-empty palette, `findNearestColor` returns
an index inside the palette whose squared Euclidean RGB distance to `c` is
minimal, and every strictly earlier index has strictly larger distance (ties
are broken by the first entry found during the linear scan). -/
theorem findNearestColor_minimizes (c : RGB) (palette : List RGB) (hne : palette ≠ []) :
    findNearestColor c palette < palette.length ∧
    (∀ j, j < palette.length →
      dist2 c (palette.getD (findNearestColor c palette) default) ≤
        dist2 c (palette.getD j default)) ∧
    (∀ j, j < findNearestColor c palette →
      dist2 c (palette.getD (findNearestColor c palette) default) <
        dist2 c (palette.getD j default)) := by
  have h := findNearestGo_spec c palette palette.length 0 ⊤ 0 (by omega) (by omega)
    (Or.inl ⟨rfl, rfl, rfl⟩)
  rw [List.drop_zero] at h
  rcases h with ⟨hnil, _⟩ | h
  · exact absurd hnil hne
  · exact h

theorem findNearestColor_minimizes_witness :
    (([⟨255, 0, 0⟩, ⟨0, 0, 0⟩] : List RGB) ≠ []) ∧
    (findNearestColor ⟨100, 0, 0⟩ [⟨255, 0, 0⟩, ⟨0, 0, 0⟩] <
        ([⟨255, 0, 0⟩, ⟨0, 0, 0⟩] : List RGB).length ∧
      (∀ j, j < ([⟨255, 0, 0⟩, ⟨0, 0, 0⟩] : List RGB).length →
        dist2 ⟨100, 0, 0⟩
            (([⟨255, 0, 0⟩, ⟨0, 0, 0⟩] : List RGB).getD
              (findNearestColor ⟨100, 0, 0⟩ [⟨255, 0, 0⟩, ⟨0, 0, 0⟩]) default) ≤
          dist2 ⟨100, 0, 0⟩ (([⟨255, 0, 0⟩, ⟨0, 0, 0⟩] : List RGB).getD j default)) ∧
      (∀ j, j < findNearestColor ⟨100, 0, 0⟩ [⟨255, 0, 0⟩, ⟨0, 0, 0⟩] →
        dist2 ⟨100, 0, 0⟩
            (([⟨255, 0, 0⟩, ⟨0, 0, 0⟩] : List RGB).getD
              (findNearestColor ⟨100, 0, 0⟩ [⟨255, 0, 0⟩, ⟨0, 0, 0⟩]) default) <
          dist2 ⟨100, 0, 0⟩ (([⟨255, 0, 0⟩, ⟨0, 0, 0⟩] : List RGB).getD j default))) :=
  ⟨by decide, findNearestColor_minimizes ⟨100, 0, 0⟩ [⟨255, 0, 0⟩, ⟨0, 0, 0⟩] (by decide)⟩

/-- C10: `findNearestColor` on an empty palette silently returns the initial
index 0, which is not a valid index into the (empty) palette, so the
`0 ≤ index < |Palette|` invariant fails there. -/
theorem findNearestColor_empty_unsound (c : RGB) :
    findNearestColor c [] = 0 ∧ ¬ findNearestColor c [] < ([] : List RGB).length :=
  ⟨rfl, by simp⟩

/-- C4: `medianCut` size postconditions: the empty colour list yields the empty
palette; `K ≤ 1` yields exactly the channel-wise rounded mean of all colours;
`K ≥ 2` yields between 1 and `K` colours, with fewer than `K` only when every
remaining bucket of size ≥ 2 has zero (non-positive) widest channel range. -/
theorem medianCut_postconditions (colors : List RGB) (K : ℕ) (hne : colors ≠ []) :
    medianCut [] K = [] ∧
    (K ≤ 1 → medianCut colors K =
      [⟨jsRound ((colors.map fun c => (c.r : ℚ)).sum / colors.length),
        jsRound ((colors.map fun c => (c.g : ℚ)).sum / colors.length),
        jsRound ((colors.map fun c => (c.b : ℚ)).sum / colors.length)⟩]) ∧
    (2 ≤ K →
      1 ≤ (medianCut colors K).length ∧ (medianCut colors K).length ≤ K ∧
      ((medianCut colors K).length < K →
        ∀ b ∈ medianCutBuckets colors K, 2 ≤ b.length → (getColorRange b).2 ≤ 0)) := by
  have hlen : colors.length ≠ 0 := by simpa using (List.length_pos.mpr hne).ne'
  refine ⟨by simp [medianCut], ?_, ?_⟩
  · intro hK
    rw [medianCut, if_neg hlen, if_pos hK, averageColor_eq_mean colors hne]
  · intro hK
    have hKle : ¬ K ≤ 1 := by omega
    have hcut : medianCut colors K = (medianCutBuckets colors K).map averageColor := by
      rw [medianCut, if_neg hlen, if_neg hKle]
    have hbounds := medianCutLoop_length_bounds K K [colors] (by simp) (by simp; omega)
    have hstuck := medianCutLoop_stuck K K [colors] (by simp; omega) (by simp)
    rw [hcut, List.length_map]
    exact ⟨hbounds.1, hbounds.2, fun hlt => hstuck hlt⟩

theorem medianCut_postconditions_witness :
    (([⟨0, 0, 0⟩, ⟨10, 0, 0⟩, ⟨255, 0, 0⟩] : List RGB) ≠ []) ∧
    (medianCut [] 2 = [] ∧
      (2 ≤ 1 → medianCut [⟨0, 0, 0⟩, ⟨10, 0, 0⟩, ⟨255, 0, 0⟩] 2 =
        [⟨jsRound ((([⟨0, 0, 0⟩, ⟨10, 0, 0⟩, ⟨255, 0, 0⟩] : List RGB).map
              fun c => (c.r : ℚ)).sum / ([⟨0, 0, 0⟩, ⟨10, 0, 0⟩, ⟨255, 0, 0⟩] : List RGB).length),
          jsRound ((([⟨0, 0, 0⟩, ⟨10, 0, 0⟩, ⟨255, 0, 0⟩] : List RGB).map
              fun c => (c.g : ℚ)).sum / ([⟨0, 0, 0⟩, ⟨10, 0, 0⟩, ⟨255, 0, 0⟩] : List RGB).length),
          jsRound ((([⟨0, 0, 0⟩, ⟨10, 0, 0⟩, ⟨255, 0, 0⟩] : List RGB).map
              fun c => (c.b : ℚ)).sum / ([⟨0, 0, 0⟩, ⟨10, 0, 0⟩, ⟨255, 0, 0⟩] : List RGB).length)⟩]) ∧
      (2 ≤ 2 →
        1 ≤ (medianCut [⟨0, 0, 0⟩, ⟨10, 0, 0⟩, ⟨255, 0, 0⟩] 2).length ∧
        (medianCut [⟨0, 0, 0⟩, ⟨10, 0, 0⟩, ⟨255, 0, 0⟩] 2).length ≤ 2 ∧
        ((medianCut [⟨0, 0, 0⟩, ⟨10, 0, 0⟩, ⟨255, 0, 0⟩] 2).length < 2 →
          ∀ b ∈ medianCutBuckets [⟨0, 0, 0⟩, ⟨10, 0, 0⟩, ⟨255, 0, 0⟩] 2,
            2 ≤ b.length → (getColorRange b).2 ≤ 0))) :=
  ⟨by decide, medianCut_postconditions [⟨0, 0, 0⟩, ⟨10, 0, 0⟩, ⟨255, 0, 0⟩] 2 (by decide)⟩

/-- C8 (counterexample): splitting a bucket of odd size 3 gives the lower half
`floor(3/2) = 1` member, not `ceil(3/2) = 2` as the claim asserts: the upper
half, not the lower half, receives the extra element. -/
theorem splitBucket_claim_counterexample :
    (splitBucket [⟨0, 0, 0⟩, ⟨10, 0, 0⟩, ⟨255, 0, 0⟩] Channel.r).map List.length = [1, 2] ∧
    ¬ (splitBucket [⟨0, 0, 0⟩, ⟨10, 0, 0⟩, ⟨255, 0, 0⟩] Channel.r).map List.length =
        [(3 + 1) / 2, 3 / 2] := by
  constructor
  · decide
  · decide

/-- C8 (amended): every bucket split in `medianCut` divides the sorted bucket
at `mid = floor(n/2)`: the lower half receives `floor(n/2)` members and the
upper half receives `ceil(n/2) = n - floor(n/2)` members, so for odd `n` the
upper half gets the extra element. -/
theorem splitBucket_floor_lower_ceil_upper (bucket : List RGB) (ch : Channel) :
    (splitBucket bucket ch).map List.length =
      [bucket.length / 2, (bucket.length + 1) / 2] := by
  have hlen : (sortBucket bucket ch).length = bucket.length := stableSortBy_length _ _
  simp only [splitBucket, List.map_cons, List.map_nil, List.length_take, List.length_drop, hlen]
  have h1 : bucket.length / 2 ⊓ bucket.length = bucket.length / 2 := by omega
  have h2 : bucket.length - bucket.length / 2 = (bucket.length + 1) / 2 := by omega
  rw [h1, h2]

/-! ### Supporting lemmas for the mesh-processor embedding -/

theorem insertSorted_perm {α : Type} (le : α → α → Bool) (x : α) (l : List α) :
    (insertSorted le x l).Perm (l ++ [x]) := by
  induction l with
  | nil => simp [insertSorted]
  | cons y ys ih =>
    simp only [insertSorted]
    split
    · exact (ih.cons y).trans (by simp)
    · exact (List.perm_append_singleton x (y :: ys)).symm

theorem stableSortBy_perm {α : Type} (le : α → α → Bool) (l : List α) :
    (stableSortBy le l).Perm l := by
  suffices h : ∀ acc : List α,
      (l.foldl (fun acc x => insertSorted le x acc) acc).Perm (acc ++ l) by
    simpa using h []
  induction l with
  | nil => simp
  | cons y ys ih =>
    intro acc
    simp only [List.foldl_cons]
    refine (ih (insertSorted le y acc)).trans ?_
    have h1 := (insertSorted_perm le y acc).append_right ys
    simpa using h1

theorem mem_dedupFirst_aux {α : Type} [DecidableEq α] (l : List α) :
    ∀ (acc : List α) (x : α),
      (x ∈ l.foldl (fun acc x => if x ∈ acc then acc else acc ++ [x]) acc) ↔ x ∈ acc ∨ x ∈ l := by
  induction l with
  | nil => simp
  | cons y ys ih =>
    intro acc x
    simp only [List.foldl_cons]
    by_cases hy : y ∈ acc
    · rw [if_pos hy, ih]
      simp only [List.mem_cons]
      constructor
      · rintro (h | h)
        · exact Or.inl h
        · exact Or.inr (Or.inr h)
      · rintro (h | rfl | h)
        · exact Or.inl h
        · exact Or.inl hy
        · exact Or.inr h
    · rw [if_neg hy, ih]
      simp only [List.mem_append, List.mem_singleton, List.mem_cons]
      tauto

theorem mem_dedupFirst {α : Type} [DecidableEq α] (l : List α) (x : α) :
    x ∈ dedupFirst l ↔ x ∈ l := by
  rw [dedupFirst, mem_dedupFirst_aux]
  simp

theorem dedupFirst_nodup_aux {α : Type} [DecidableEq α] (l : List α) :
    ∀ acc : List α, acc.Nodup →
      (l.foldl (fun acc x => if x ∈ acc then acc else acc ++ [x]) acc).Nodup := by
  induction l with
  | nil => exact fun acc h => h
  | cons y ys ih =>
    intro acc hacc
    simp only [List.foldl_cons]
    by_cases hy : y ∈ acc
    · rw [if_pos hy]
      exact ih acc hacc
    · rw [if_neg hy]
      refine ih _ ?_
      simp [List.nodup_append, hacc, hy]

theorem dedupFirst_nodup {α : Type} [DecidableEq α] (l : List α) : (dedupFirst l).Nodup :=
  dedupFirst_nodup_aux l [] List.nodup_nil

theorem dedupFirst_append_singleton {α : Type} [DecidableEq α] (l : List α) (x : α) :
    dedupFirst (l ++ [x]) =
      if x ∈ dedupFirst l then dedupFirst l else dedupFirst l ++ [x] := by
  rw [dedupFirst, List.foldl_append]
  simp only [List.foldl_cons, List.foldl_nil, dedupFirst]

theorem groupByColor_succ (l : List ℕ) (n : ℕ) :
    groupByColor l (n + 1) = insertFace (groupByColor l n) (l.getD n 0) n := by
  rw [groupByColor, List.range_succ, List.foldl_append]
  simp only [List.foldl_cons, List.foldl_nil, groupByColor]

theorem any_key_eq_mem_map_fst {β : Type} (m : List (ℕ × β)) (k : ℕ) :
    m.any (fun g => g.1 == k) = true ↔ k ∈ m.map Prod.fst := by
  simp only [List.any_eq_true, List.mem_map, beq_iff_eq]

theorem getD_mem_take (l : List ℕ) (i n : ℕ) (hi : i < n) (hn : n ≤ l.length) :
    l.getD i 0 ∈ l.take n := by
  have hil : i < l.length := lt_of_lt_of_le hi hn
  have hitake : i < (l.take n).length := by
    rw [List.length_take]
    omega
  rw [List.getD_eq_getElem l 0 hil]
  have : (l.take n)[i] = l[i] := List.getElem_take l
  rw [← this]
  exact List.getElem_mem hitake

theorem groupByColor_spec (l : List ℕ) :
    ∀ n, n ≤ l.length →
      (groupByColor l n).map Prod.fst = dedupFirst (l.take n) ∧
      ∀ p ∈ groupByColor l n,
        p.2 = (List.range n).filter (fun i => decide (l.getD i 0 = p.1)) := by
  intro n
  induction n with
  | zero =>
    intro _
    constructor
    · simp [groupByColor, dedupFirst]
    · simp [groupByColor]
  | succ n ih =>
    intro hn
    obtain ⟨ihkeys, ihent⟩ := ih (by omega)
    have hnl : n < l.length := by omega
    have htake : l.take (n + 1) = l.take n ++ [l.getD n 0] := by
      rw [List.take_succ, List.getElem?_eq_getElem hnl]
      rw [List.getD_eq_getElem l 0 hnl]
      rfl
    rw [groupByColor_succ, htake, dedupFirst_append_singleton]
    by_cases hmem : l.getD n 0 ∈ dedupFirst (l.take n)
    · rw [if_pos hmem]
      have hany : (groupByColor l n).any (fun g => g.1 == l.getD n 0) = true := by
        rw [any_key_eq_mem_map_fst, ihkeys]
        exact hmem
      rw [insertFace, if_pos hany]
      constructor
      · rw [List.map_map]
        have hfst : (Prod.fst ∘ fun g : ℕ × List ℕ =>
            if g.1 = l.getD n 0 then (g.1, g.2 ++ [n]) else g) = Prod.fst := by
          funext g
          simp only [Function.comp_apply]
          split <;> rfl
        rw [hfst, ihkeys]
      · intro p hp
        rw [List.mem_map] at hp
        obtain ⟨q, hq, rfl⟩ := hp
        have hq2 := ihent q hq
        by_cases hqk : q.1 = l.getD n 0
        · rw [if_pos hqk]
          simp only
          rw [List.range_succ, List.filter_append, ← hq2]
          have hfn : decide (l.getD n 0 = q.1) = true := by
            rw [hqk]
            simp
          rw [List.filter_cons, List.filter_nil, hfn]
          simp
        · rw [if_neg hqk]
          rw [List.range_succ, List.filter_append, ← hq2]
          have hfn : decide (l.getD n 0 = q.1) = false := by
            simp only [decide_eq_false_iff_not]
            exact fun h => hqk h.symm
          rw [List.filter_cons, List.filter_nil, hfn]
          simp
    · rw [if_neg hmem]
      have hany : ¬ (groupByColor l n).any (fun g => g.1 == l.getD n 0) = true := by
        rw [any_key_eq_mem_map_fst, ihkeys]
        exact hmem
      rw [insertFace, if_neg hany]
      constructor
      · rw [List.map_append, ihkeys]
        rfl
      · intro p hp
        rw [List.mem_append] at hp
        rcases hp with hp | hp
        · have hq2 := ihent p hp
          have hpk : p.1 ≠ l.getD n 0 := by
            intro h
            apply hmem
            rw [← h, ← ihkeys]
            exact List.mem_map_of_mem Prod.fst hp
          rw [List.range_succ, List.filter_append, ← hq2]
          have hfn : decide (l.getD n 0 = p.1) = false := by
            simp only [decide_eq_false_iff_not]
            exact fun h => hpk h.symm
          rw [List.filter_cons, List.filter_nil, hfn]
          simp
        · rw [List.mem_singleton] at hp
          subst hp
          simp only
          rw [List.range_succ, List.filter_append]
          have hempty : (List.range n).filter (fun i => decide (l.getD i 0 = l.getD n 0)) = [] := by
            rw [List.filter_eq_nil_iff]
            intro i hi
            rw [List.mem_range] at hi
            simp only [decide_eq_true_eq]
            intro hik
            apply hmem
            rw [mem_dedupFirst, ← hik]
            exact getD_mem_take l i n hi (by omega)
          rw [hempty, List.filter_cons, List.filter_nil]
          have hfn : decide (l.getD n 0 = l.getD n 0) = true := by simp
          rw [hfn]
          simp

theorem filter_range_length_count (l : List ℕ) (k : ℕ) :
    ((List.range l.length).filter (fun i => decide (l.getD i 0 = k))).length =
      List.count k l := by
  induction l using List.reverseRecOn with
  | nil => simp
  | append_singleton xs x ih =>
    rw [List.length_append, List.length_singleton, List.range_succ, List.filter_append,
      List.length_append]
    have hsame : (List.range xs.length).filter (fun i => decide ((xs ++ [x]).getD i 0 = k)) =
        (List.range xs.length).filter (fun i => decide (xs.getD i 0 = k)) := by
      apply List.filter_congr
      intro i hi
      rw [List.mem_range] at hi
      have : (xs ++ [x]).getD i 0 = xs.getD i 0 := by
        rw [List.getD_eq_getElem _ _ (by simp; omega), List.getD_eq_getElem _ _ hi]
        exact List.getElem_append_left hi
      rw [this]
    rw [hsame, ih]
    have hx : (xs ++ [x]).getD xs.length 0 = x := by
      rw [List.getD_eq_getElem _ _ (by simp)]
      simp
    rw [List.filter_cons, List.filter_nil, hx, List.count_append]
    by_cases hxk : x = k
    · rw [if_pos (by simp [hxk])]
      simp [hxk, List.count_singleton]
    · rw [if_neg (by simp [hxk])]
      have : List.count k [x] = 0 := by
        simp [List.count_singleton]
        exact fun h => hxk h
      rw [this]
      simp

theorem dedupFirst_perm_dedup (l : List ℕ) : (dedupFirst l).Perm l.dedup := by
  rw [List.perm_ext_iff_of_nodup (dedupFirst_nodup l) l.nodup_dedup]
  intro a
  rw [mem_dedupFirst, List.mem_dedup]

theorem sum_counts_dedupFirst (l : List ℕ) :
    ((dedupFirst l).map (fun k => List.count k l)).sum = l.length := by
  rw [((dedupFirst_perm_dedup l).map (fun k => List.count k l)).sum_eq]
  exact List.sum_map_count_dedup_eq_length l

/-! ### Claim theorems for the mesh-segmentation component -/

/-- C1: segmentation partitions the triangle set: for valid face-colour
indices, every triangle index below `totalFaces = l.length` lies in exactly one
group's index list, all group indices are in range, the mesh face counts sum to
the total, and each produced mesh's colour equals `palette[colorIndex]`. -/
theorem buildMeshesByColor_partitions (positions : List (ℚ × ℚ × ℚ))
    (normals : Option (List (ℚ × ℚ × ℚ))) (palette : List RGB) (l : List ℕ)
    (hval : ∀ x ∈ l, x < palette.length) :
    (∀ j, j < l.length → ∃ p ∈ groupByColor l l.length, j ∈ p.2) ∧
    (∀ p ∈ groupByColor l l.length, ∀ q ∈ groupByColor l l.length,
      ∀ j, j ∈ p.2 → j ∈ q.2 → p = q) ∧
    (∀ p ∈ groupByColor l l.length, ∀ j ∈ p.2, j < l.length) ∧
    ((buildMeshesByColor positions normals l palette l.length).1.map
        ProcessedMesh.faceCount).sum = l.length ∧
    (∀ me ∈ (buildMeshesByColor positions normals l palette l.length).1,
      ∃ h : me.colorIndex < palette.length, me.color = palette.get ⟨me.colorIndex, h⟩) := by
  obtain ⟨hkeys, hent⟩ := groupByColor_spec l l.length le_rfl
  rw [List.take_length] at hkeys
  refine ⟨?_, ?_, ?_, ?_, ?_⟩
  · intro j hj
    have hjl : l.getD j 0 ∈ l := by
      rw [List.getD_eq_getElem l 0 hj]
      exact List.getElem_mem hj
    have hjk : l.getD j 0 ∈ (groupByColor l l.length).map Prod.fst := by
      rw [hkeys, mem_dedupFirst]
      exact hjl
    rw [List.mem_map] at hjk
    obtain ⟨p, hp, hpfst⟩ := hjk
    refine ⟨p, hp, ?_⟩
    rw [hent p hp, List.mem_filter]
    exact ⟨List.mem_range.mpr hj, by simp [hpfst]⟩
  · intro p hp q hq j hjp hjq
    rw [hent p hp, List.mem_filter] at hjp
    rw [hent q hq, List.mem_filter] at hjq
    have h1 : l.getD j 0 = p.1 := of_decide_eq_true hjp.2
    have h2 : l.getD j 0 = q.1 := of_decide_eq_true hjq.2
    have hnd : ((groupByColor l l.length).map Prod.fst).Nodup := by
      rw [hkeys]
      exact dedupFirst_nodup l
    exact List.inj_on_of_nodup_map hnd hp hq (h1.symm.trans h2)
  · intro p hp j hj
    rw [hent p hp, List.mem_filter, List.mem_range] at hj
    exact hj.1
  · have hmap : (buildMeshesByColor positions normals l palette l.length).1.map
        ProcessedMesh.faceCount = (groupByColor l l.length).map (fun g => g.2.length) := by
      simp only [buildMeshesByColor]
      rw [List.map_map]
      rfl
    rw [hmap]
    have hpt : (groupByColor l l.length).map (fun g => g.2.length) =
        (groupByColor l l.length).map (fun g => List.count g.1 l) := by
      apply List.map_congr_left
      intro g hg
      rw [hent g hg, filter_range_length_count]
    rw [hpt]
    have hcomp : (groupByColor l l.length).map (fun g => List.count g.1 l) =
        ((groupByColor l l.length).map Prod.fst).map (fun k => List.count k l) := by
      rw [List.map_map]
      rfl
    rw [hcomp, hkeys, sum_counts_dedupFirst]
  · intro me hme
    simp only [buildMeshesByColor] at hme
    rw [List.mem_map] at hme
    obtain ⟨g, hg, rfl⟩ := hme
    have hgl : g.1 ∈ l := by
      have hmm : g.1 ∈ (groupByColor l l.length).map Prod.fst := List.mem_map_of_mem Prod.fst hg
      rw [hkeys, mem_dedupFirst] at hmm
      exact hmm
    refine ⟨hval g.1 hgl, ?_⟩
    simp only
    rw [List.getD_eq_getElem palette default (hval g.1 hgl)]
    rfl

theorem buildMeshesByColor_partitions_witness :
    (∀ x ∈ ([1, 0, 1] : List ℕ), x < ([⟨255, 0, 0⟩, ⟨0, 0, 255⟩] : List RGB).length) ∧
    ((∀ j, j < ([1, 0, 1] : List ℕ).length →
        ∃ p ∈ groupByColor [1, 0, 1] ([1, 0, 1] : List ℕ).length, j ∈ p.2) ∧
      (∀ p ∈ groupByColor [1, 0, 1] ([1, 0, 1] : List ℕ).length,
        ∀ q ∈ groupByColor [1, 0, 1] ([1, 0, 1] : List ℕ).length,
        ∀ j, j ∈ p.2 → j ∈ q.2 → p = q) ∧
      (∀ p ∈ groupByColor [1, 0, 1] ([1, 0, 1] : List ℕ).length,
        ∀ j ∈ p.2, j < ([1, 0, 1] : List ℕ).length) ∧
      ((buildMeshesByColor [] none [1, 0, 1] [⟨255, 0, 0⟩, ⟨0, 0, 255⟩]
          ([1, 0, 1] : List ℕ).length).1.map ProcessedMesh.faceCount).sum =
        ([1, 0, 1] : List ℕ).length ∧
      (∀ me ∈ (buildMeshesByColor [] none [1, 0, 1] [⟨255, 0, 0⟩, ⟨0, 0, 255⟩]
          ([1, 0, 1] : List ℕ).length).1,
        ∃ h : me.colorIndex < ([⟨255, 0, 0⟩, ⟨0, 0, 255⟩] : List RGB).length,
          me.color = ([⟨255, 0, 0⟩, ⟨0, 0, 255⟩] : List RGB).get ⟨me.colorIndex, h⟩)) :=
  ⟨by decide,
    buildMeshesByColor_partitions [] none [⟨255, 0, 0⟩, ⟨0, 0, 255⟩] [1, 0, 1] (by decide)⟩

/-- C7 (counterexample): with face-colour indices `[1, 0]` the groups come out
in first-occurrence order `[1, 0]`, which is not ascending palette-index
order. -/
theorem segmentation_order_counterexample :
    (buildMeshesByColor [] none [1, 0] [⟨255, 0, 0⟩, ⟨0, 0, 255⟩] 2).1.map
        ProcessedMesh.colorIndex = [1, 0] ∧
    ¬ List.Sorted (· ≤ ·)
        ((buildMeshesByColor [] none [1, 0] [⟨255, 0, 0⟩, ⟨0, 0, 255⟩] 2).1.map
          ProcessedMesh.colorIndex) := by
  constructor
  · rfl
  · decide

/-- C7 (amended): the ColorGroup list of segmentation is ordered by the first
occurrence of each palette index among the faces (JS `Map` insertion order),
not by ascending palette index. -/
theorem buildMeshesByColor_order_first_occurrence (positions : List (ℚ × ℚ × ℚ))
    (normals : Option (List (ℚ × ℚ × ℚ))) (l : List ℕ) (palette : List RGB) :
    (buildMeshesByColor positions normals l palette l.length).1.map
      ProcessedMesh.colorIndex = dedupFirst l := by
  obtain ⟨hkeys, _⟩ := groupByColor_spec l l.length le_rfl
  rw [List.take_length] at hkeys
  simp only [buildMeshesByColor]
  rw [List.map_map]
  exact hkeys

/-! ### Subdivision and resampling lemmas -/

theorem subdivideVerts_length :
    ∀ verts : List (ℚ × ℚ × ℚ), 3 ∣ verts.length →
      (subdivideVerts verts).length = 4 * verts.length := by
  intro verts
  induction verts using subdivideVerts.induct with
  | case1 v0 v1 v2 rest ih =>
    intro h3
    have h3' : 3 ∣ rest.length := by
      simp only [List.length_cons] at h3
      omega
    simp only [subdivideVerts, List.length_append, List.length_cons, ih h3',
      List.length_nil]
    omega
  | case2 verts h =>
    intro h3
    match verts, h3 with
    | [], _ => rfl
    | [a], h3 =>
      simp only [List.length_cons, List.length_nil] at h3
      omega
    | [a, b], h3 =>
      simp only [List.length_cons, List.length_nil] at h3
      omega
    | a :: b :: c :: rest, h3 => exact absurd rfl (h a b c rest)

theorem subdivideGeometry_length (L : ℕ) :
    ∀ verts : List (ℚ × ℚ × ℚ), 3 ∣ verts.length →
      (subdivideGeometry verts L).length = 4 ^ L * verts.length := by
  induction L with
  | zero =>
    intro verts _
    simp [subdivideGeometry]
  | succ n ih =>
    intro verts h3
    have hlen := subdivideVerts_length verts h3
    have h3' : 3 ∣ (subdivideVerts verts).length := by
      rw [hlen]
      exact Dvd.dvd.mul_left h3 4
    simp only [subdivideGeometry]
    rw [ih (subdivideVerts verts) h3', hlen, pow_succ]
    ring

theorem flatMap_assoc {α β γ : Type} (l : List α) (f : α → List β) (g : β → List γ) :
    (l.flatMap f).flatMap g = l.flatMap fun x => (f x).flatMap g := by
  induction l with
  | nil => simp
  | cons y ys ih => simp [List.flatMap_cons, List.flatMap_append, ih]

theorem subdivideColors_replicate (L : ℕ) :
    ∀ colors : List RGB,
      subdivideColors colors L = colors.flatMap fun c => List.replicate (4 ^ L) c := by
  induction L with
  | zero =>
    intro colors
    simp only [subdivideColors, pow_zero, List.replicate_one]
    induction colors with
    | nil => rfl
    | cons c cs ih =>
      simp only [List.flatMap_cons, ← ih]
      rfl
  | succ n ih =>
    intro colors
    simp only [subdivideColors]
    rw [ih, subdivideColorsOnce, flatMap_assoc]
    have hfour : ∀ c : RGB,
        ([c, c, c, c].flatMap fun x => List.replicate (4 ^ n) x) =
          List.replicate (4 ^ (n + 1)) c := by
      intro c
      simp only [List.flatMap_cons, List.flatMap_nil, List.append_nil]
      rw [← List.replicate_add, ← List.replicate_add, ← List.replicate_add]
      congr 1
      rw [pow_succ]
      ring
    simp only [hfour]

theorem subdivideColors_length (L : ℕ) (colors : List RGB) :
    (subdivideColors colors L).length = colors.length * 4 ^ L := by
  rw [subdivideColors_replicate, List.length_flatMap]
  have : (colors.map (List.length ∘ fun c => List.replicate (4 ^ L) c)) =
      colors.map fun _ => 4 ^ L := by
    apply List.map_congr_left
    intro c _
    simp
  rw [this, List.map_const', List.sum_replicate, smul_eq_mul]

/-- C5: subdivision is exact: on a non-indexed triangle geometry (vertex count
divisible by 3) the subdivided triangle count is the initial count times
`4 ^ L`, `subdivideColors` turns each entry into `4 ^ L` consecutive copies,
its length is `n * 4 ^ L`, and the face-colour table length matches the
subdivided triangle count whenever it matched before. -/
theorem subdivision_exact (verts : List (ℚ × ℚ × ℚ)) (colors : List RGB) (L : ℕ)
    (h3 : 3 ∣ verts.length) :
    (subdivideGeometry verts L).length / 3 = 4 ^ L * (verts.length / 3) ∧
    subdivideColors colors L = colors.flatMap (fun c => List.replicate (4 ^ L) c) ∧
    (subdivideColors colors L).length = colors.length * 4 ^ L ∧
    (colors.length = verts.length / 3 →
      (subdivideColors colors L).length = (subdivideGeometry verts L).length / 3) := by
  have hgeom : (subdivideGeometry verts L).length / 3 = 4 ^ L * (verts.length / 3) := by
    rw [subdivideGeometry_length L verts h3, Nat.mul_div_assoc _ h3]
  refine ⟨hgeom, subdivideColors_replicate L colors, subdivideColors_length L colors, ?_⟩
  intro hcount
  rw [subdivideColors_length L colors, hcount, hgeom]
  ring

theorem subdivision_exact_witness :
    (3 ∣ ([(0, 0, 0), (1, 0, 0), (0, 1, 0)] : List (ℚ × ℚ × ℚ)).length) ∧
    ((subdivideGeometry [(0, 0, 0), (1, 0, 0), (0, 1, 0)] 1).length / 3 =
        4 ^ 1 * (([(0, 0, 0), (1, 0, 0), (0, 1, 0)] : List (ℚ × ℚ × ℚ)).length / 3) ∧
      subdivideColors [⟨255, 0, 0⟩] 1 =
        ([⟨255, 0, 0⟩] : List RGB).flatMap (fun c => List.replicate (4 ^ 1) c) ∧
      (subdivideColors [⟨255, 0, 0⟩] 1).length = ([⟨255, 0, 0⟩] : List RGB).length * 4 ^ 1 ∧
      (([⟨255, 0, 0⟩] : List RGB).length =
          ([(0, 0, 0), (1, 0, 0), (0, 1, 0)] : List (ℚ × ℚ × ℚ)).length / 3 →
        (subdivideColors [⟨255, 0, 0⟩] 1).length =
          (subdivideGeometry [(0, 0, 0), (1, 0, 0), (0, 1, 0)] 1).length / 3)) :=
  ⟨by decide, subdivision_exact [(0, 0, 0), (1, 0, 0), (0, 1, 0)] [⟨255, 0, 0⟩] 1 (by decide)⟩

theorem strideTake_spec (orig : List RGB) (stride : ℕ) :
    ∀ rem i : ℕ, (rem = 0 ∨ i + (rem - 1) * stride < orig.length) →
      strideTake orig stride rem i =
        (List.range rem).map fun k => orig.getD (i + k * stride) default := by
  intro rem
  induction rem with
  | zero =>
    intro i _
    simp [strideTake]
  | succ r ih =>
    intro i hbound
    have hb : i + r * stride < orig.length := by
      rcases hbound with h0 | h
      · omega
      · simpa using h
    have hi : i < orig.length :=
      lt_of_le_of_lt (Nat.le_add_right i (r * stride)) hb
    simp only [strideTake, dif_pos hi]
    rw [ih (i + stride) ?_]
    · rw [List.range_succ_eq_map]
      simp only [List.map_cons, List.map_map]
      congr 1
      · rw [List.getD_eq_getElem orig default (by simpa using hi)]
        simp [List.get_eq_getElem]
      · apply List.map_congr_left
        intro k _
        simp only [Function.comp_apply]
        congr 1
        rw [Nat.succ_eq_add_one]
        ring
    · cases r with
      | zero => exact Or.inl rfl
      | succ r' =>
        right
        have heq : i + stride + (r' + 1 - 1) * stride = i + (r' + 1) * stride := by
          simp only [Nat.add_sub_cancel]
          ring
        rw [heq]
        exact hb

/-- C6: when the simplified face count `m` is strictly below the original
face-colour count, the rebuilt face-colour table has length exactly `m`, and
(for `m > 0`) consists of every `stride`-th original entry with
`stride = floor(n / m)`. -/
theorem rebuildFaceColors_length (orig : List RGB) (m : ℕ) (hm : m < orig.length) :
    (rebuildFaceColors orig m).length = m ∧
    (0 < m → rebuildFaceColors orig m =
      (List.range m).map fun k => orig.getD (k * (orig.length / m)) default) := by
  rw [rebuildFaceColors, if_pos hm, resampleColors]
  rcases Nat.eq_zero_or_pos m with rfl | hpos
  · exact ⟨by simp [strideTake], fun h => absurd h (by omega)⟩
  · have hs1 : 1 ≤ orig.length / m := (Nat.one_le_div_iff hpos).mpr (le_of_lt hm)
    have hstride : max 1 (orig.length / m) = orig.length / m := by omega
    have hmul : orig.length / m * m ≤ orig.length := Nat.div_mul_le_self _ _
    have hsplit : (m - 1) * (orig.length / m) + orig.length / m = m * (orig.length / m) := by
      rw [← Nat.succ_mul]
      congr 1
      omega
    have hcomm : m * (orig.length / m) = orig.length / m * m := Nat.mul_comm _ _
    have hbound : 0 + (m - 1) * (orig.length / m) < orig.length := by omega
    rw [hstride, strideTake_spec orig (orig.length / m) m 0 (Or.inr hbound)]
    constructor
    · simp
    · intro _
      apply List.map_congr_left
      intro k _
      simp

theorem rebuildFaceColors_length_witness :
    (2 < ([⟨1, 0, 0⟩, ⟨2, 0, 0⟩, ⟨3, 0, 0⟩, ⟨4, 0, 0⟩, ⟨5, 0, 0⟩] : List RGB).length) ∧
    ((rebuildFaceColors [⟨1, 0, 0⟩, ⟨2, 0, 0⟩, ⟨3, 0, 0⟩, ⟨4, 0, 0⟩, ⟨5, 0, 0⟩] 2).length = 2 ∧
      (0 < 2 → rebuildFaceColors [⟨1, 0, 0⟩, ⟨2, 0, 0⟩, ⟨3, 0, 0⟩, ⟨4, 0, 0⟩, ⟨5, 0, 0⟩] 2 =
        (List.range 2).map fun k =>
          ([⟨1, 0, 0⟩, ⟨2, 0, 0⟩, ⟨3, 0, 0⟩, ⟨4, 0, 0⟩, ⟨5, 0, 0⟩] : List RGB).getD
            (k * (([⟨1, 0, 0⟩, ⟨2, 0, 0⟩, ⟨3, 0, 0⟩, ⟨4, 0, 0⟩, ⟨5, 0, 0⟩] :
              List RGB).length / 2)) default)) :=
  ⟨by decide,
    rebuildFaceColors_length [⟨1, 0, 0⟩, ⟨2, 0, 0⟩, ⟨3, 0, 0⟩, ⟨4, 0, 0⟩, ⟨5, 0, 0⟩] 2
      (by decide)⟩

/-! ### Colour-distribution lemmas -/

theorem colorCounts_spec (l : List ℕ) :
    (colorCounts l).map Prod.fst = dedupFirst l ∧
    ∀ p ∈ colorCounts l, p.2 = List.count p.1 l := by
  induction l using List.reverseRecOn with
  | nil =>
    constructor
    · rfl
    · simp [colorCounts]
  | append_singleton xs x ih =>
    obtain ⟨ihkeys, ihent⟩ := ih
    have hstep : colorCounts (xs ++ [x]) = bumpCount (colorCounts xs) x := by
      rw [colorCounts, List.foldl_append]
      simp only [List.foldl_cons, List.foldl_nil, colorCounts]
    rw [hstep, dedupFirst_append_singleton]
    by_cases hmem : x ∈ dedupFirst xs
    · rw [if_pos hmem]
      have hany : (colorCounts xs).any (fun p => p.1 == x) = true := by
        rw [any_key_eq_mem_map_fst, ihkeys]
        exact hmem
      rw [bumpCount, if_pos hany]
      constructor
      · rw [List.map_map]
        have hfst : (Prod.fst ∘ fun p : ℕ × ℕ =>
            if p.1 = x then (p.1, p.2 + 1) else p) = Prod.fst := by
          funext p
          simp only [Function.comp_apply]
          split <;> rfl
        rw [hfst, ihkeys]
      · intro p hp
        rw [List.mem_map] at hp
        obtain ⟨q, hq, rfl⟩ := hp
        have hq2 := ihent q hq
        by_cases hqx : q.1 = x
        · rw [if_pos hqx]
          simp only
          rw [List.count_append, ← hq2]
          have hone : List.count q.1 [x] = 1 := by
            rw [List.count_singleton, if_pos (by simp [hqx])]
          rw [hone]
        · rw [if_neg hqx]
          rw [List.count_append, ← hq2]
          have hzero : List.count q.1 [x] = 0 := by
            rw [List.count_singleton, if_neg (by simp; exact fun h => hqx h.symm)]
          rw [hzero]
          omega
    · rw [if_neg hmem]
      have hany : ¬ (colorCounts xs).any (fun p => p.1 == x) = true := by
        rw [any_key_eq_mem_map_fst, ihkeys]
        exact hmem
      rw [bumpCount, if_neg hany]
      constructor
      · rw [List.map_append, ihkeys]
        rfl
      · intro p hp
        rw [List.mem_append] at hp
        rcases hp with hp | hp
        · have hq2 := ihent p hp
          have hpx : p.1 ≠ x := fun h =>
            hmem (by rw [← h, ← ihkeys]; exact List.mem_map_of_mem Prod.fst hp)
          rw [List.count_append, ← hq2]
          have hzero : List.count p.1 [x] = 0 := by
            rw [List.count_singleton, if_neg (by simp; exact fun h => hpx h.symm)]
          rw [hzero]
          omega
        · rw [List.mem_singleton] at hp
          subst hp
          simp only
          rw [List.count_append]
          have h0 : List.count x xs = 0 :=
            List.count_eq_zero.mpr fun h => hmem ((mem_dedupFirst xs x).mpr h)
          have h1 : List.count x [x] = 1 := by
            rw [List.count_singleton, if_pos (by simp)]
          rw [h0, h1]

/-- C9: for a non-empty face-colour-index list, every report entry's
percentage is `count / totalTriangles * 100`, and the percentages sum to
exactly 100 (hence to 100 within ±0.01). -/
theorem colorDistribution_sums_to_100 (l : List ℕ) (palette : List RGB) (hne : l ≠ []) :
    (∀ e ∈ colorDistribution l palette, e.percentage = (e.count : ℚ) / l.length * 100) ∧
    ((colorDistribution l palette).map ColorDistEntry.percentage).sum = 100 ∧
    |((colorDistribution l palette).map ColorDistEntry.percentage).sum - 100| ≤ 1 / 100 := by
  obtain ⟨hkeys, hent⟩ := colorCounts_spec l
  have hn : (l.length : ℚ) ≠ 0 := by
    exact_mod_cast (List.length_pos.mpr hne).ne'
  have hsum : ((colorDistribution l palette).map ColorDistEntry.percentage).sum = 100 := by
    rw [colorDistribution, List.map_map]
    have hfuse : (ColorDistEntry.percentage ∘ fun p : ℕ × ℕ =>
        ({ color := rgbToHex (palette.getD p.1 default), count := p.2,
           percentage := (p.2 : ℚ) / l.length * 100 } : ColorDistEntry)) =
        fun p : ℕ × ℕ => (p.2 : ℚ) / l.length * 100 := rfl
    rw [hfuse]
    have hperm := ((stableSortBy_perm (fun a b : ℕ × ℕ => decide (a.1 ≤ b.1))
      (colorCounts l)).map (fun p : ℕ × ℕ => (p.2 : ℚ) / l.length * 100)).sum_eq
    rw [hperm]
    have hpt : (colorCounts l).map (fun p => (p.2 : ℚ) / l.length * 100) =
        (colorCounts l).map (fun p => (List.count p.1 l : ℚ) / l.length * 100) := by
      apply List.map_congr_left
      intro p hp
      rw [hent p hp]
    rw [hpt]
    have hcomp : (colorCounts l).map (fun p => (List.count p.1 l : ℚ) / l.length * 100) =
        ((colorCounts l).map Prod.fst).map (fun k => (List.count k l : ℚ) / l.length * 100) := by
      rw [List.map_map]
      rfl
    rw [hcomp, hkeys]
    have hfac : (fun k => (List.count k l : ℚ) / l.length * 100) =
        fun k => (List.count k l : ℚ) * (100 / l.length) := by
      funext k
      ring
    rw [hfac, List.sum_map_mul_right]
    have hcast : ((dedupFirst l).map (fun k => (List.count k l : ℚ))).sum =
        ((((dedupFirst l).map (fun k => List.count k l)).sum : ℕ) : ℚ) := by
      rw [Nat.cast_list_sum, List.map_map]
      rfl
    rw [hcast, sum_counts_dedupFirst]
    field_simp
  refine ⟨?_, hsum, ?_⟩
  · intro e he
    rw [colorDistribution, List.mem_map] at he
    obtain ⟨p, hp, rfl⟩ := he
    rfl
  · rw [hsum]
    norm_num

theorem colorDistribution_sums_to_100_witness :
    (([1, 0, 1] : List ℕ) ≠ []) ∧
    ((∀ e ∈ colorDistribution [1, 0, 1] [⟨255, 0, 0⟩, ⟨0, 0, 255⟩],
        e.percentage = (e.count : ℚ) / ([1, 0, 1] : List ℕ).length * 100) ∧
      ((colorDistribution [1, 0, 1] [⟨255, 0, 0⟩, ⟨0, 0, 255⟩]).map
          ColorDistEntry.percentage).sum = 100 ∧
      |((colorDistribution [1, 0, 1] [⟨255, 0, 0⟩, ⟨0, 0, 255⟩]).map
          ColorDistEntry.percentage).sum - 100| ≤ 1 / 100) :=
  ⟨by decide, colorDistribution_sums_to_100 [1, 0, 1] [⟨255, 0, 0⟩, ⟨0, 0, 255⟩] (by decide)⟩

/-! ### Lemmas about the export package and its validation -/

theorem find?_key_map_update (z : List (String × String)) (p q c : String) (h : p ≠ q) :
    (z.map (fun e => if e.1 = p then (p, c) else e)).find? (fun e => e.1 == q) =
      z.find? (fun e => e.1 == q) := by
  induction z with
  | nil => rfl
  | cons e es ih =>
    simp only [List.map_cons]
    by_cases hep : e.1 = p
    · rw [if_pos hep]
      rw [List.find?_cons_of_neg _ (by simp only [beq_iff_eq]; exact h),
        List.find?_cons_of_neg _ (by simp only [beq_iff_eq, hep]; exact h), ih]
    · rw [if_neg hep]
      by_cases heq : e.1 = q
      · rw [List.find?_cons_of_pos _ (by simp [heq]), List.find?_cons_of_pos _ (by simp [heq])]
      · rw [List.find?_cons_of_neg _ (by simp [heq]), List.find?_cons_of_neg _ (by simp [heq]),
          ih]

theorem zipGet_zipSet_ne (z : List (String × String)) (p q c : String) (h : p ≠ q) :
    zipGet (zipSet z p c) q = zipGet z q := by
  rw [zipSet]
  by_cases hany : z.any (fun e => e.1 == p)
  · rw [if_pos hany, zipGet, zipGet, find?_key_map_update z p q c h]
  · rw [if_neg hany, zipGet, zipGet, List.find?_append]
    have hnone : List.find? (fun e : String × String => e.1 == q) [(p, c)] = none := by
      rw [List.find?_cons_of_neg _ (by simp only [beq_iff_eq]; exact h)]
      rfl
    rw [hnone, Option.or_none]

theorem reportPath_ne_objectPath (b : String) :
    ("Metadata/3DTextureConverter_report.txt" : String) ≠ "3D/Objects/" ++ b ++ ".model" := by
  intro h
  have hd : ("Metadata/3DTextureConverter_report.txt" : String).data.head? =
      ("3D/Objects/" ++ b ++ ".model").data.head? := by rw [h]
  have h3 : ("3D/Objects/" ++ b ++ ".model").data.head? = some '3' := by
    rw [String.data_append, String.data_append]
    rfl
  rw [h3] at hd
  simp at hd

theorem validate_report_invariant (z : List (String × String)) (b c : String) :
    validate3MFStructure (zipSet z "Metadata/3DTextureConverter_report.txt" c) b =
      validate3MFStructure z b := by
  have h1 := zipGet_zipSet_ne z "Metadata/3DTextureConverter_report.txt"
    ("3D/Objects/" ++ b ++ ".model") c (reportPath_ne_objectPath b)
  have h2 := zipGet_zipSet_ne z "Metadata/3DTextureConverter_report.txt"
    "3D/_rels/3dmodel.model.rels" c (by decide)
  have h3 := zipGet_zipSet_ne z "Metadata/3DTextureConverter_report.txt"
    "3D/3dmodel.model" c (by decide)
  simp only [validate3MFStructure, h1, h2, h3]

theorem infix_joinWith {e : String} (sep : String) (l : List String) (he : e ∈ l) :
    e.data <:+: (joinWith sep l).data := by
  induction l with
  | nil => simp at he
  | cons x xs ih =>
    rcases List.mem_cons.mp he with rfl | hmem
    · cases xs with
      | nil => exact List.infix_rfl
      | cons y ys =>
        refine ⟨[], (sep ++ joinWith sep (y :: ys)).data, ?_⟩
        show [] ++ e.data ++ (sep ++ joinWith sep (y :: ys)).data =
          (joinWith sep (e :: y :: ys)).data
        have hjw : joinWith sep (e :: y :: ys) = e ++ sep ++ joinWith sep (y :: ys) := rfl
        rw [hjw]
        simp [String.data_append, List.append_assoc]
    · cases xs with
      | nil => simp at hmem
      | cons y ys =>
        obtain ⟨u, v, huv⟩ := ih hmem
        refine ⟨(x ++ sep).data ++ u, v, ?_⟩
        have hjw : joinWith sep (x :: y :: ys) = x ++ sep ++ joinWith sep (y :: ys) := rfl
        have hdata : (x ++ sep ++ joinWith sep (y :: ys)).data =
            x.data ++ sep.data ++ (joinWith sep (y :: ys)).data := by
          simp [String.data_append]
        rw [hjw, hdata, ← huv]
        simp [List.append_assoc]

theorem infix_of_append_left {α : Type} {l t : List α} (s : List α) (h : l <:+: t) :
    l <:+: s ++ t := by
  obtain ⟨u, v, huv⟩ := h
  exact ⟨s ++ u, v, by rw [← huv]; simp [List.append_assoc]⟩

theorem export3MF_ok_form (ed : ExportData) (filename : String) (mode : ExportMode)
    (dateStr : String)
    (hv : (validate3MFStructure
        (buildExportZip ed.positions ed.faceColorIndices ed.palette
          (sanitizeBaseName filename) mode) (sanitizeBaseName filename)).valid = true) :
    export3MF ed filename mode dateStr =
      Except.ok (zipSet
        (buildExportZip ed.positions ed.faceColorIndices ed.palette
          (sanitizeBaseName filename) mode)
        "Metadata/3DTextureConverter_report.txt"
        (buildExpandedDiagnosticReport
          (exportReportOf ed (sanitizeBaseName filename) mode
            (buildExportZip ed.positions ed.faceColorIndices ed.palette
              (sanitizeBaseName filename) mode)
            (validate3MFStructure
              (buildExportZip ed.positions ed.faceColorIndices ed.palette
                (sanitizeBaseName filename) mode) (sanitizeBaseName filename)))
          (sanitizeBaseName filename) dateStr),
        exportReportOf ed (sanitizeBaseName filename) mode
          (buildExportZip ed.positions ed.faceColorIndices ed.palette
            (sanitizeBaseName filename) mode)
          (validate3MFStructure
            (buildExportZip ed.positions ed.faceColorIndices ed.palette
              (sanitizeBaseName filename) mode) (sanitizeBaseName filename))) := by
  simp only [export3MF]
  rw [if_pos hv]

/-- C2: the export fails closed: either the post-build structural validation
of the built package succeeds and `export3MF` returns a package that (with the
diagnostic report file added) still validates, or validation fails and
`export3MF` throws a single error whose message contains every string of the
validator's error list; a package that failed validation is never returned. -/
theorem export3MF_fails_closed (ed : ExportData) (filename : String) (mode : ExportMode)
    (dateStr : String) :
    ((validate3MFStructure
        (buildExportZip ed.positions ed.faceColorIndices ed.palette
          (sanitizeBaseName filename) mode) (sanitizeBaseName filename)).valid = true ∧
      ∃ zip report, export3MF ed filename mode dateStr = Except.ok (zip, report) ∧
        (validate3MFStructure zip (sanitizeBaseName filename)).valid = true) ∨
    ((validate3MFStructure
        (buildExportZip ed.positions ed.faceColorIndices ed.palette
          (sanitizeBaseName filename) mode) (sanitizeBaseName filename)).valid = false ∧
      export3MF ed filename mode dateStr =
        Except.error ("3MF Validation Failed:\n" ++
          joinWith "\n" (validate3MFStructure
            (buildExportZip ed.positions ed.faceColorIndices ed.palette
              (sanitizeBaseName filename) mode) (sanitizeBaseName filename)).errors) ∧
      ∀ e ∈ (validate3MFStructure
          (buildExportZip ed.positions ed.faceColorIndices ed.palette
            (sanitizeBaseName filename) mode) (sanitizeBaseName filename)).errors,
        e.data <:+: ("3MF Validation Failed:\n" ++
          joinWith "\n" (validate3MFStructure
            (buildExportZip ed.positions ed.faceColorIndices ed.palette
              (sanitizeBaseName filename) mode) (sanitizeBaseName filename)).errors).data) := by
  by_cases hv : (validate3MFStructure
      (buildExportZip ed.positions ed.faceColorIndices ed.palette
        (sanitizeBaseName filename) mode) (sanitizeBaseName filename)).valid = true
  · left
    have hok := export3MF_ok_form ed filename mode dateStr hv
    refine ⟨hv, _, _, hok, ?_⟩
    rw [validate_report_invariant]
    exact hv
  · right
    simp only [Bool.not_eq_true] at hv
    have hcond : ¬ ((validate3MFStructure
        (buildExportZip ed.positions ed.faceColorIndices ed.palette
          (sanitizeBaseName filename) mode) (sanitizeBaseName filename)).valid = true) := by
      rw [hv]
      exact Bool.false_ne_true
    refine ⟨hv, ?_, ?_⟩
    · simp only [export3MF]
      rw [if_neg hcond]
    · intro e he
      have h1 := infix_joinWith "\n" _ he
      rw [String.data_append]
      exact infix_of_append_left _ h1

end Tex3MF
